import Mathlib

/-!
Verification of the storyboard orchestration core of the ainario repository.

The development shallowly embeds the relevant TypeScript source:

* `handleGenerateStoryboard` (the storyboard orchestrator) together with the
  service helpers `generateImage` and `analyzeImageStyle`, modelled as pure
  functions parameterised by oracles for the outcomes of the external
  generative-service calls; the list of issued calls is recorded explicitly.
* the JSON post-processing step (code-fence stripping, `JSON.parse`,
  `JSON.stringify(_, null, 2)`), modelled with an executable JSON parser and
  pretty-printer over `List Char`.  JSON numbers are modelled as integers
  (JavaScript numbers are IEEE doubles, whose shortest-representation
  printing is outside a shallow embedding); the modelled grammar is otherwise
  the strict JSON grammar restricted to integer numerals.
* `handleGenerateScene` (single-scene preview extraction), including the
  semantics of the `--- (?:SCENE|PROMPT) \d+.*---` split regex.

JavaScript `String.prototype.trim` is modelled over the ASCII whitespace
class (space, tab, newline, carriage return, vertical tab, form feed).
-/

namespace Ainario

/-! ## JSON value model

`JValue` models the JavaScript values produced by `JSON.parse`: object fields
keep their textual order and may repeat (lookup takes the last occurrence, as
`JSON.parse` does).  Numbers are modelled as integers, see the file comment. -/

inductive JValue where
  | null : JValue
  | bool (b : Bool) : JValue
  | num (n : Int) : JValue
  | str (s : List Char) : JValue
  | arr (xs : List JValue) : JValue
  | obj (fs : List (List Char × JValue)) : JValue

instance : Inhabited JValue := ⟨JValue.null⟩

/-! ## JSON lexical helpers -/

/-- JSON whitespace accepted between tokens by `JSON.parse`. -/
def isJsonWs (c : Char) : Bool :=
  c = ' ' || c = '\t' || c = '\n' || c = '\r'

/-- Skip JSON whitespace. -/
def skipWs : List Char → List Char
  | [] => []
  | c :: cs => if isJsonWs c then skipWs cs else c :: cs

/-- Value of a hexadecimal digit, as accepted in a `\u` escape. -/
def hexVal (c : Char) : Option Nat :=
  if '0' ≤ c ∧ c ≤ '9' then some (c.toNat - '0'.toNat)
  else if 'a' ≤ c ∧ c ≤ 'f' then some (c.toNat - 'a'.toNat + 10)
  else if 'A' ≤ c ∧ c ≤ 'F' then some (c.toNat - 'A'.toNat + 10)
  else none

/-- Decode a single-character JSON escape (the character after the
backslash), for the named escapes. -/
def unescapeChar (e : Char) : Option Char :=
  if e = '"' then some '"'
  else if e = '\\' then some '\\'
  else if e = '/' then some '/'
  else if e = 'b' then some '\x08'
  else if e = 'f' then some '\x0c'
  else if e = 'n' then some '\n'
  else if e = 'r' then some '\r'
  else if e = 't' then some '\t'
  else none

/-- Parse the remainder of a JSON string literal (after the opening quote),
returning the decoded content and the input after the closing quote.
Raw control characters are rejected, as in the JSON grammar; a `\u` escape
must denote a unicode scalar value (JavaScript would also accept lone
surrogates, which `Char` cannot represent). -/
def parseStringRest : List Char → Option (List Char × List Char)
  | [] => none
  | c :: cs =>
    if c = '"' then some ([], cs)
    else if c = '\\' then
      match cs with
      | [] => none
      | e :: cs2 =>
        if e = 'u' then
          match cs2 with
          | h1 :: h2 :: h3 :: h4 :: cs3 =>
            match hexVal h1, hexVal h2, hexVal h3, hexVal h4 with
            | some a, some b, some c2, some d =>
              let n := ((a * 16 + b) * 16 + c2) * 16 + d
              if h : n.isValidChar then
                (parseStringRest cs3).map (fun r => (Char.ofNatAux n h :: r.1, r.2))
              else none
            | _, _, _, _ => none
          | _ => none
        else
          match unescapeChar e with
          | some u => (parseStringRest cs2).map (fun r => (u :: r.1, r.2))
          | none => none
    else if c.toNat < 0x20 then none
    else (parseStringRest cs).map (fun r => (c :: r.1, r.2))

/-- Numeric value of a list of decimal digit characters. -/
def digitsToNat (ds : List Char) : Nat :=
  ds.foldl (fun acc c => acc * 10 + (c.toNat - 48)) 0

/-- Parse a JSON natural-number token: `0` alone, or a nonzero digit followed
by further digits (JSON forbids redundant leading zeros). -/
def parseNatToken : List Char → Option (Nat × List Char)
  | [] => none
  | c :: rest =>
    if c = '0' then some (0, rest)
    else if c.isDigit then
      some (digitsToNat ((c :: rest).takeWhile Char.isDigit),
        (c :: rest).dropWhile Char.isDigit)
    else none

/-- Parse a JSON (integer) number token, with optional leading minus sign. -/
def parseNumberToken : List Char → Option (Int × List Char)
  | [] => none
  | c :: rest =>
    if c = '-' then (parseNatToken rest).map (fun r => (-(r.1 : Int), r.2))
    else (parseNatToken (c :: rest)).map (fun r => ((r.1 : Int), r.2))

mutual

/-- Recursive-descent JSON value parsing with explicit fuel.  Leading
whitespace is skipped; the returned remainder starts right after the parsed
value. -/
def parseValue : Nat → List Char → Option (JValue × List Char)
  | 0, _ => none
  | fuel + 1, s =>
    match skipWs s with
    | 'n' :: 'u' :: 'l' :: 'l' :: rest => some (.null, rest)
    | 't' :: 'r' :: 'u' :: 'e' :: rest => some (.bool true, rest)
    | 'f' :: 'a' :: 'l' :: 's' :: 'e' :: rest => some (.bool false, rest)
    | '"' :: rest => (parseStringRest rest).map (fun r => (.str r.1, r.2))
    | '[' :: rest =>
      let s2 := skipWs rest
      if s2.head? = some ']' then some (.arr [], s2.tail)
      else parseElems fuel s2 []
    | '\x7b' :: rest =>
      let s2 := skipWs rest
      if s2.head? = some '\x7d' then some (.obj [], s2.tail)
      else parseMembers fuel s2 []
    | c :: rest =>
      if c = '-' ∨ c.isDigit then
        (parseNumberToken (c :: rest)).map (fun r => (.num r.1, r.2))
      else none
    | [] => none

/-- Parse the elements of a non-empty JSON array (after `[` and whitespace). -/
def parseElems : Nat → List Char → List JValue → Option (JValue × List Char)
  | 0, _, _ => none
  | fuel + 1, s, acc =>
    match parseValue fuel s with
    | none => none
    | some (v, rest) =>
      match skipWs rest with
      | [] => none
      | c :: rest2 =>
        if c = ',' then parseElems fuel rest2 (acc ++ [v])
        else if c = ']' then some (.arr (acc ++ [v]), rest2)
        else none

/-- Parse the members of a non-empty JSON object (after `\x7b` and
whitespace). -/
def parseMembers : Nat → List Char → List (List Char × JValue) →
    Option (JValue × List Char)
  | 0, _, _ => none
  | fuel + 1, s, acc =>
    match s with
    | [] => none
    | c :: rest =>
      if c = '"' then
        match parseStringRest rest with
        | none => none
        | some (key, rest1) =>
          match skipWs rest1 with
          | [] => none
          | c2 :: rest2 =>
            if c2 = ':' then
              match parseValue fuel rest2 with
              | none => none
              | some (v, rest3) =>
                match skipWs rest3 with
                | [] => none
                | c3 :: rest4 =>
                  if c3 = ',' then
                    parseMembers fuel (skipWs rest4) (acc ++ [(key, v)])
                  else if c3 = '\x7d' then
                    some (.obj (acc ++ [(key, v)]), rest4)
                  else none
            else none
      else none

end

/-- `JSON.parse`: parse a complete JSON document; trailing content other than
whitespace is rejected. -/
def jsonParse (s : List Char) : Option JValue :=
  match parseValue (s.length + 1) s with
  | some (v, rest) => if skipWs rest = [] then some v else none
  | none => none

/-! ## JSON pretty-printer, modelling `JSON.stringify(value, null, 2)` -/

/-- Decimal digit character. -/
def digitChar (d : Nat) : Char :=
  match d with
  | 0 => '0' | 1 => '1' | 2 => '2' | 3 => '3' | 4 => '4'
  | 5 => '5' | 6 => '6' | 7 => '7' | 8 => '8' | _ => '9'

/-- Lower-case hexadecimal digit character, as used in `\u00xx` escapes. -/
def hexDigitChar (d : Nat) : Char :=
  match d with
  | 0 => '0' | 1 => '1' | 2 => '2' | 3 => '3' | 4 => '4'
  | 5 => '5' | 6 => '6' | 7 => '7' | 8 => '8' | 9 => '9'
  | 10 => 'a' | 11 => 'b' | 12 => 'c' | 13 => 'd' | 14 => 'e' | _ => 'f'

/-- Decimal digits of a natural number, most significant first; the fuel
argument (any bound above the number itself) only makes the recursion
structural. -/
def natDigitsAux : Nat → Nat → List Char
  | 0, _ => []
  | fuel + 1, n =>
    if n < 10 then [digitChar n]
    else natDigitsAux fuel (n / 10) ++ [digitChar (n % 10)]

/-- Decimal digits of a natural number, most significant first. -/
def natDigits (n : Nat) : List Char :=
  natDigitsAux (n + 1) n

/-- Decimal rendering of an integer, as `JSON.stringify` renders an integral
number. -/
def printInt (n : Int) : List Char :=
  if n < 0 then '-' :: natDigits n.natAbs else natDigits n.natAbs

/-- Escape one character as inside a `JSON.stringify` string literal:
quote, backslash and the control characters are escaped, everything else is
emitted verbatim. -/
def escapeChar (c : Char) : List Char :=
  if c = '"' then ['\\', '"']
  else if c = '\\' then ['\\', '\\']
  else if c = '\x08' then ['\\', 'b']
  else if c = '\t' then ['\\', 't']
  else if c = '\n' then ['\\', 'n']
  else if c = '\x0c' then ['\\', 'f']
  else if c = '\r' then ['\\', 'r']
  else if c.toNat < 0x20 then
    ['\\', 'u', '0', '0', hexDigitChar (c.toNat / 16), hexDigitChar (c.toNat % 16)]
  else [c]

/-- Escape a string body character by character. -/
def escapeString : List Char → List Char
  | [] => []
  | c :: cs => escapeChar c ++ escapeString cs

/-- Indentation emitted by `JSON.stringify(_, null, 2)` at nesting depth `d`. -/
def indentChars (d : Nat) : List Char :=
  List.replicate (2 * d) ' '

mutual

/-- `JSON.stringify(v, null, 2)` at nesting depth `d`. -/
def stringifyVal : Nat → JValue → List Char
  | _, .null => "null".data
  | _, .bool true => "true".data
  | _, .bool false => "false".data
  | _, .num n => printInt n
  | _, .str s => '"' :: (escapeString s ++ ['"'])
  | _, .arr [] => "[]".data
  | d, .arr (x :: xs) =>
    "[\n".data ++ stringifyElems (d + 1) x xs ++ '\n' :: (indentChars d ++ "]".data)
  | _, .obj [] => "\x7b\x7d".data
  | d, .obj (f :: fs) =>
    "\x7b\n".data ++ stringifyFields (d + 1) f fs ++ '\n' :: (indentChars d ++ "\x7d".data)
termination_by _ v => sizeOf v

/-- The comma-and-newline separated, indented elements of a non-empty array. -/
def stringifyElems : Nat → JValue → List JValue → List Char
  | d, x, [] => indentChars d ++ stringifyVal d x
  | d, x, y :: ys =>
    indentChars d ++ stringifyVal d x ++ ",\n".data ++ stringifyElems d y ys
termination_by _ x xs => sizeOf x + sizeOf xs

/-- The comma-and-newline separated, indented members of a non-empty object. -/
def stringifyFields : Nat → (List Char × JValue) → List (List Char × JValue) →
    List Char
  | d, (k, v), [] =>
    indentChars d ++ '"' :: (escapeString k ++ "\": ".data ++ stringifyVal d v)
  | d, (k, v), g :: gs =>
    indentChars d ++ '"' :: (escapeString k ++ "\": ".data ++ stringifyVal d v)
      ++ ",\n".data ++ stringifyFields d g gs
termination_by _ f fs => sizeOf f + sizeOf fs

end

/-! ## The JSON post-processing step of `handleGenerateStoryboard`

Models `promptText.replace(/```json\n?/, '').replace(/```$/, '').trim()`
followed by `JSON.parse` and, on success, `JSON.stringify(parsed, null, 2)`;
on parse failure the stripped text is returned unchanged. -/

/-- Remove the first occurrence of ````json` (together with one directly
following newline, if present), as `replace(/```json\n?/, '')` does.  If no
occurrence exists the input is returned unchanged. -/
def removeFirstJsonFence : List Char → List Char
  | '`' :: '`' :: '`' :: 'j' :: 's' :: 'o' :: 'n' :: '\n' :: r => r
  | '`' :: '`' :: '`' :: 'j' :: 's' :: 'o' :: 'n' :: r => r
  | c :: rest => c :: removeFirstJsonFence rest
  | [] => []

/-- Remove a trailing ` ``` `, as `replace(/```$/, '')` does (a JavaScript
non-multiline `$` matches only at the very end of the string). -/
def removeClosingFence (s : List Char) : List Char :=
  match s.reverse with
  | '`' :: '`' :: '`' :: r => r.reverse
  | _ => s

/-- The whitespace class trimmed by the model of `String.prototype.trim`
(ASCII whitespace; JavaScript also trims some further unicode space
characters, which do not occur in the texts of interest). -/
def isTrimWs (c : Char) : Bool :=
  c = ' ' || c = '\t' || c = '\n' || c = '\r' || c = '\x0b' || c = '\x0c'

/-- Model of `String.prototype.trim` over character lists. -/
def jsTrimList (s : List Char) : List Char :=
  ((s.dropWhile isTrimWs).reverse.dropWhile isTrimWs).reverse

/-- The code-fence stripping applied before `JSON.parse`:
`.replace(/```json\n?/, '').replace(/```$/, '').trim()`. -/
def stripFences (s : List Char) : List Char :=
  jsTrimList (removeClosingFence (removeFirstJsonFence s))

/-- The whole JSON post-processing step: strip fences, try `JSON.parse`,
pretty-print on success, and fall back to the stripped raw text on failure. -/
def postProcessJson (raw : List Char) : List Char :=
  let t := stripFences raw
  match jsonParse t with
  | some v => stringifyVal 0 v
  | none => t

/-- String-level wrapper of `postProcessJson`. -/
def postProcessJsonStr (s : String) : String :=
  String.mk (postProcessJson s.data)

/-! ## A size measure for JSON values, used to discharge parser fuel -/

mutual

/-- Node-count measure of a JSON value. -/
def sizeJ : JValue → Nat
  | .null => 1
  | .bool _ => 1
  | .num _ => 1
  | .str _ => 1
  | .arr xs => 1 + sizeList xs
  | .obj fs => 1 + sizeFields fs
termination_by v => sizeOf v

/-- Node-count measure of a list of array elements. -/
def sizeList : List JValue → Nat
  | [] => 1
  | x :: xs => 1 + sizeJ x + sizeList xs
termination_by xs => sizeOf xs

/-- Node-count measure of a list of object members. -/
def sizeFields : List (List Char × JValue) → Nat
  | [] => 1
  | (_, v) :: fs => 1 + sizeJ v + sizeFields fs
termination_by fs => sizeOf fs

end

/-- Whether a character list does not begin with a decimal digit (the
side condition under which a number token is not extended by what follows
it). -/
def digitFreeHead : List Char → Bool
  | [] => true
  | c :: _ => !c.isDigit

/-! ## The storyboard orchestrator, `handleGenerateStoryboard`

The orchestrator is modelled as a pure function of its inputs plus oracles
for the outcomes of the external service calls:

* `analyzeOutcome` — the outcome of the one `analyzeImageStyle` call (used
  only when a reference image is present);
* `imgSvc i` — the outcome of the `ai.models.generateImages` call issued for
  scene index `i`: `.error e` is a rejected request, `.ok v` is a response
  whose extracted `generatedImages?.[0]?.image?.imageBytes` chain gives `v`;
* `masterOutcome` — the outcome of the master `generateContent` call.

The run records the list of issued service calls, the final
`generationError` state, and the result (`.error` models a thrown error). -/

/-- Model of `String.prototype.trim` on `String`. -/
def jsTrim (s : String) : String :=
  String.mk (jsTrimList s.data)

/-- One content part of a `generateContent` request. -/
inductive Part where
  | text (s : String) : Part
  | inlineData (mimeType : String) (data : String) : Part
deriving DecidableEq

/-- A service call issued by the orchestrator. -/
inductive Call where
  | analyzeImageStyle : Call
  | generateImage (prompt : String) : Call
  | generateMasterPrompt (parts : List Part) : Call
deriving DecidableEq

/-- The `promptFormat` argument. -/
inductive PromptFormat where
  | classic : PromptFormat
  | json : PromptFormat
deriving DecidableEq

/-- The success payload `{prompts, sceneImages}`. -/
structure StoryboardSuccess where
  prompts : String
  sceneImages : List (Option String)
deriving DecidableEq

/-- The observable outcome of one orchestrator run. -/
structure RunOutcome where
  calls : List Call
  generationError : Option (List String)
  result : Except String StoryboardSuccess

/-- `array.join(', ')` as used on the style fragments. -/
def joinComma : List String → String
  | [] => ""
  | [s] => s
  | s :: rest => s ++ ", " ++ joinComma rest

/-- The style guide built in step 1 before any image analysis:
`selectedStyle !== 'No Style' ? ... : ...`. -/
def baseStyleGuide (selectedStyle : String) : String :=
  if selectedStyle ≠ "No Style" then "Cinematic Style: " ++ selectedStyle ++ "."
  else "No specific cinematic style has been selected; rely on the reference image (if provided) and scene descriptions for style cues."

/-- Outcome of step 1 (style resolution): the style guide, the
image-derived keywords, and the calls issued. -/
structure StyleResolution where
  styleGuide : String
  imageStyleKeywords : String
  calls : List Call

/-- Step 1: build the style guide, analysing the reference image when one is
present; an analysis failure is swallowed and leaves the name-only guide. -/
def resolveStyle (selectedStyle : String) (hasImageFile : Bool)
    (analyzeOutcome : Except String String) : StyleResolution :=
  if hasImageFile then
    match analyzeOutcome with
    | .ok imageStyle =>
      { styleGuide := baseStyleGuide selectedStyle ++ "\nReference Image Style: " ++ imageStyle
        imageStyleKeywords := imageStyle
        calls := [.analyzeImageStyle] }
    | .error _ =>
      { styleGuide := baseStyleGuide selectedStyle
        imageStyleKeywords := ""
        calls := [.analyzeImageStyle] }
  else
    { styleGuide := baseStyleGuide selectedStyle
      imageStyleKeywords := ""
      calls := [] }

/-- `[selectedStyle !== 'No Style' ? selectedStyle : '', imageStyleKeywords]
.filter(Boolean).join(', ')`. -/
def styleForPrompt (selectedStyle imageStyleKeywords : String) : String :=
  joinComma (([(if selectedStyle ≠ "No Style" then selectedStyle else ""),
    imageStyleKeywords]).filter (fun s => s ≠ ""))

/-- The per-scene image-generation prompt
`` `${styleForPrompt ? styleForPrompt + ', ' : ''}cinematic shot depicting ${scene.trim()}` ``. -/
def fullScenePrompt (selectedStyle imageStyleKeywords scene : String) : String :=
  let sfp := styleForPrompt selectedStyle imageStyleKeywords
  (if sfp ≠ "" then sfp ++ ", " else "") ++ "cinematic shot depicting " ++ jsTrim scene

/-- `generateImage`: a service response whose extracted image-byte chain is
absent or empty (JavaScript falsy) becomes the thrown
`'No images generated from prompt.'`; a rejected request propagates. -/
def generateImageResult (svc : Except String (Option String)) :
    Except String String :=
  match svc with
  | .error e => .error e
  | .ok none => .error "No images generated from prompt."
  | .ok (some image) =>
    if image = "" then .error "No images generated from prompt." else .ok image

/-- One slot of the per-scene fan-out: for a non-empty scene, the issued
call together with the `Promise.allSettled`-style settled value (`none` for a
rejection); for an empty scene, no call and a fulfilled `null`. -/
def sceneSettle (selectedStyle imageStyleKeywords : String)
    (imgSvc : Nat → Except String (Option String)) (i : Nat) (scene : String) :
    Option Call × Option String :=
  if jsTrim scene ≠ "" then
    let prompt := fullScenePrompt selectedStyle imageStyleKeywords scene
    (some (.generateImage prompt),
      match generateImageResult (imgSvc i) with
      | .ok image => some image
      | .error _ => none)
  else (none, none)

/-- Step 2: the fan-out `scenes.map((scene) => ...)` with its index. -/
def storyboardFanout (selectedStyle imageStyleKeywords : String)
    (imgSvc : Nat → Except String (Option String)) :
    Nat → List String → List (Option Call × Option String)
  | _, [] => []
  | i, scene :: rest =>
    sceneSettle selectedStyle imageStyleKeywords imgSvc i scene ::
      storyboardFanout selectedStyle imageStyleKeywords imgSvc (i + 1) rest

/-- The `sceneImages` array: the settled value of every fan-out slot, in
scene order. -/
def storyboardSceneImages (selectedStyle imageStyleKeywords : String)
    (imgSvc : Nat → Except String (Option String)) (scenes : List String) :
    List (Option String) :=
  (storyboardFanout selectedStyle imageStyleKeywords imgSvc 0 scenes).map
    (fun slot => slot.2)

/-- The image-generation calls issued by the fan-out, in scene order. -/
def storyboardImageCalls (selectedStyle imageStyleKeywords : String)
    (imgSvc : Nat → Except String (Option String)) (scenes : List String) :
    List Call :=
  (storyboardFanout selectedStyle imageStyleKeywords imgSvc 0 scenes).filterMap
    (fun slot => slot.1)

/-- The fixed framing instruction that opens the master-synthesis request. -/
def framingInstruction : String :=
  "Based on the following storyboard scenes (text and images), and adhering to the specified cinematic and technical guidance, create a series of detailed, individual shot prompts for a video generation model."

/-- Step 3 (per-scene portion): `scenes.forEach((scene, index) => ...)`,
pushing a text part for each non-empty scene and, when `sceneImages[index]`
is truthy (a non-empty string), an inlined image part. -/
def sceneParts (sceneImages : List (Option String)) :
    Nat → List String → List Part
  | _, [] => []
  | i, scene :: rest =>
    (if jsTrim scene ≠ "" then
      Part.text ("Scene " ++ toString (i + 1) ++ ": " ++ jsTrim scene) ::
        (match sceneImages.getD i none with
         | some imageBase64 =>
           if imageBase64 ≠ "" then [Part.inlineData "image/jpeg" imageBase64]
           else []
         | none => [])
    else []) ++ sceneParts sceneImages (i + 1) rest

/-- Step 3: the full multi-part master-synthesis request. -/
def storyboardPromptParts (scenes : List String) (styleGuide : String)
    (sceneImages : List (Option String)) : List Part :=
  Part.text framingInstruction ::
    Part.text ("--- STYLE GUIDANCE ---\n" ++ styleGuide) ::
    sceneParts sceneImages 0 scenes

/-- The user-facing validation error of the pre-flight scene check. -/
def noScenesError : String := "Please add at least one scene to the storyboard."

/-- The user-facing error lines set when the workflow fails fatally. -/
def fatalErrorLines : List String :=
  ["Failed to generate storyboard.",
   "Please check your connection or API key and try again."]

/-- The whole orchestrator `handleGenerateStoryboard`. -/
def handleGenerateStoryboard (scenes : List String) (hasImageFile : Bool)
    (selectedStyle : String) (promptFormat : PromptFormat)
    (analyzeOutcome : Except String String)
    (imgSvc : Nat → Except String (Option String))
    (masterOutcome : Except String String) : RunOutcome :=
  let nonEmptyScenes := scenes.filter (fun s => jsTrim s ≠ "")
  if nonEmptyScenes.length = 0 then
    { calls := []
      generationError := some [noScenesError]
      result := .error noScenesError }
  else
    let sr := resolveStyle selectedStyle hasImageFile analyzeOutcome
    let sceneImages := storyboardSceneImages selectedStyle sr.imageStyleKeywords imgSvc scenes
    let imageCalls := storyboardImageCalls selectedStyle sr.imageStyleKeywords imgSvc scenes
    let parts := storyboardPromptParts scenes sr.styleGuide sceneImages
    let calls := sr.calls ++ imageCalls ++ [Call.generateMasterPrompt parts]
    match masterOutcome with
    | .error _ =>
      { calls := calls
        generationError := some fatalErrorLines
        result := .error "Could not generate storyboard." }
    | .ok text =>
      let promptText :=
        if promptFormat = PromptFormat.json then postProcessJsonStr text else text
      { calls := calls
        generationError := none
        result := .ok { prompts := promptText, sceneImages := sceneImages } }

/-- The number of image-generation calls in a call list. -/
def imageCallCount (calls : List Call) : Nat :=
  (calls.filter (fun c => match c with
    | .generateImage _ => true
    | _ => false)).length

/-! ## Single-scene preview extraction, `handleGenerateScene`

Models the first-example-prompt extraction: try `JSON.parse`; on success read
`parsed[0].generation_prompt` for a non-empty array, else
`parsed.scenes[0].generation_prompt` for a wrapper object; on parse failure
split on `/--- (?:SCENE|PROMPT) \d+.*---/` and take the trimmed second piece;
finally fall back to the whole master prompt when the candidate trims to
nothing. -/

/-- JavaScript property lookup on a parsed JSON object: the last occurrence
of a repeated key wins, as in `JSON.parse`. -/
def jGet (fs : List (List Char × JValue)) (key : List Char) : Option JValue :=
  ((fs.filter (fun f => f.1 = key)).getLast?).map (fun f => f.2)

/-- `x.generation_prompt` where `x` is a parsed JSON value: a string field
of an object; anything else behaves as absent.  (A present non-string field
would be JavaScript-truthy and then crash at `.trim()`; no such input occurs
in the properties under study.) -/
def genPromptField (v : JValue) : Option (List Char) :=
  match v with
  | .obj fs =>
    match jGet fs ("generation_prompt".data) with
    | some (.str s) => some s
    | _ => none
  | _ => none

/-- The `firstScenePrompt` computed from a successfully parsed master prompt:
`parsed[0].generation_prompt` when `parsed` is a non-empty array, else
`parsed?.scenes[0].generation_prompt` when `parsed.scenes` is a non-empty
array (a non-empty string `scenes` would index to a one-character string
whose `generation_prompt` is undefined). -/
def firstScenePromptOf (parsed : JValue) : Option (List Char) :=
  match parsed with
  | .arr (x :: _) => genPromptField x
  | .arr [] => none
  | .obj fs =>
    match jGet fs ("scenes".data) with
    | some (.arr (y :: _)) => genPromptField y
    | _ => none
  | _ => none

/-- End position (exclusive) of the last occurrence of `---` in a line, the
end a greedy `.*---` backtracks to. -/
def lastTripleDashEnd : List Char → Option Nat
  | [] => none
  | c :: rest =>
    match lastTripleDashEnd rest with
    | some e => some (e + 1)
    | none =>
      match c, rest with
      | '-', '-' :: '-' :: _ => some 3
      | _, _ => none

/-- Consume the `(?:SCENE|PROMPT) ` alternative, returning the number of
characters consumed and the remainder. -/
def chopKeyword : List Char → Option (Nat × List Char)
  | 'S' :: 'C' :: 'E' :: 'N' :: 'E' :: ' ' :: rest => some (6, rest)
  | 'P' :: 'R' :: 'O' :: 'M' :: 'P' :: 'T' :: ' ' :: rest => some (7, rest)
  | _ => none

/-- The length matched by `--- (?:SCENE|PROMPT) \d+.*---` against a
newline-free line, anchored at its start: the literal prefix, at least one
digit, then greedily up to the last `---` of the line.  `.` does not match a
newline, so a match never crosses a line boundary. -/
def markerLineLen (line : List Char) : Option Nat :=
  match line with
  | '-' :: '-' :: '-' :: ' ' :: rest =>
    match chopKeyword rest with
    | some (k, rest2) =>
      let ds := rest2.takeWhile Char.isDigit
      if ds.length = 0 then none
      else
        match lastTripleDashEnd (rest2.dropWhile Char.isDigit) with
        | some e => some (4 + k + ds.length + e)
        | none => none
    | none => none
  | _ => none

/-- The length matched by the marker regex at the start of `s`: only the
current line (up to the next newline) can take part in a match. -/
def markerMatchLen (s : List Char) : Option Nat :=
  markerLineLen (s.takeWhile (fun c => c ≠ '\n'))

/-- `String.prototype.split` against the marker regex: scan left to right,
cutting at each leftmost match.  A match is at least one character long
(it starts with `---`), so consuming the head plus `len - 1` further
characters consumes exactly the match. -/
def splitMarkersAux (acc : List Char) : List Char → List (List Char)
  | [] => [acc.reverse]
  | c :: rest =>
    match markerMatchLen (c :: rest) with
    | some len => acc.reverse :: splitMarkersAux [] (rest.drop (len - 1))
    | none => splitMarkersAux (c :: acc) rest
termination_by s => s.length
decreasing_by
  all_goals simp_arith [List.length_drop]

/-- `masterPrompt.split(/--- (?:SCENE|PROMPT) \d+.*---/)`. -/
def splitMarkers (s : List Char) : List (List Char) :=
  splitMarkersAux [] s

/-- The candidate `finalPrompt` before the final emptiness guard: the value
of `finalPrompt` after the `try`/`catch` block of `handleGenerateScene`. -/
def extractCandidate (masterPrompt : List Char) : List Char :=
  match jsonParse masterPrompt with
  | some parsed =>
    match firstScenePromptOf parsed with
    | some p => if p ≠ [] then p else masterPrompt
    | none => masterPrompt
  | none =>
    match splitMarkers masterPrompt with
    | _ :: second :: _ => jsTrimList second
    | _ => masterPrompt

/-- The prompt submitted by `handleGenerateScene`:
`finalPrompt.trim() === '' ? masterPrompt : finalPrompt`. -/
def extractFinalPrompt (masterPrompt : List Char) : List Char :=
  let finalPrompt := extractCandidate masterPrompt
  if jsTrimList finalPrompt = [] then masterPrompt else finalPrompt

/-- Spec-shape of the per-scene portion of the master-synthesis request,
written from the specification's wording: for each non-empty scene, in
original order, one text part followed by one inlined image part exactly
when a generated preview image exists for that scene's index; empty scenes
contribute nothing.  To be compared with the source-derived `sceneParts`. -/
def specSceneParts (sceneImages : List (Option String)) :
    Nat → List String → List Part
  | _, [] => []
  | i, scene :: rest =>
    (if jsTrim scene ≠ "" then
      Part.text ("Scene " ++ toString (i + 1) ++ ": " ++ jsTrim scene) ::
        (match sceneImages.getD i none with
         | some imageBase64 => [Part.inlineData "image/jpeg" imageBase64]
         | none => [])
    else []) ++ specSceneParts sceneImages (i + 1) rest

/-! ## Lemmas about the per-scene fan-out -/

theorem storyboardFanout_length (st kw : String)
    (svc : Nat → Except String (Option String)) :
    ∀ (i : Nat) (scenes : List String),
      (storyboardFanout st kw svc i scenes).length = scenes.length
  | _, [] => rfl
  | i, _ :: rest => by
    simp [storyboardFanout, storyboardFanout_length st kw svc (i + 1) rest]

theorem storyboardFanout_get (st kw : String)
    (svc : Nat → Except String (Option String)) :
    ∀ (i j : Nat) (scenes : List String),
      (storyboardFanout st kw svc i scenes)[j]? =
        scenes[j]?.map (fun sc => sceneSettle st kw svc (i + j) sc)
  | _, _, [] => by simp [storyboardFanout]
  | i, 0, scene :: rest => by simp [storyboardFanout]
  | i, j + 1, scene :: rest => by
    have h : i + 1 + j = i + (j + 1) := by omega
    simp only [storyboardFanout, List.getElem?_cons_succ]
    rw [storyboardFanout_get st kw svc (i + 1) j rest, h]

theorem storyboardFanout_calls (st kw : String)
    (svc : Nat → Except String (Option String)) :
    ∀ (i : Nat) (scenes : List String),
      (storyboardFanout st kw svc i scenes).filterMap (fun slot => slot.1) =
        (scenes.filter (fun s => jsTrim s ≠ "")).map
          (fun sc => Call.generateImage (fullScenePrompt st kw sc))
  | _, [] => rfl
  | i, scene :: rest => by
    by_cases h : jsTrim scene ≠ ""
    · simp [storyboardFanout, sceneSettle, h, List.filter_cons,
        storyboardFanout_calls st kw svc (i + 1) rest]
    · simp [storyboardFanout, sceneSettle, h, List.filter_cons,
        storyboardFanout_calls st kw svc (i + 1) rest]

theorem storyboardSceneImages_length (st kw : String)
    (svc : Nat → Except String (Option String)) (scenes : List String) :
    (storyboardSceneImages st kw svc scenes).length = scenes.length := by
  simp [storyboardSceneImages, storyboardFanout_length]

theorem storyboardSceneImages_get (st kw : String)
    (svc : Nat → Except String (Option String)) (scenes : List String)
    (j : Nat) :
    (storyboardSceneImages st kw svc scenes)[j]? =
      scenes[j]?.map (fun sc => (sceneSettle st kw svc j sc).2) := by
  simp only [storyboardSceneImages, List.getElem?_map,
    storyboardFanout_get st kw svc 0 j scenes, Nat.zero_add, Option.map_map]
  rfl

theorem storyboardImageCalls_eq (st kw : String)
    (svc : Nat → Except String (Option String)) (scenes : List String) :
    storyboardImageCalls st kw svc scenes =
      (scenes.filter (fun s => jsTrim s ≠ "")).map
        (fun sc => Call.generateImage (fullScenePrompt st kw sc)) := by
  simp [storyboardImageCalls, storyboardFanout_calls st kw svc 0 scenes]

/-! ## Characterisations of the three exits of the orchestrator -/

theorem handleGenerateStoryboard_of_allEmpty (scenes : List String)
    (hasImageFile : Bool) (selectedStyle : String)
    (promptFormat : PromptFormat) (analyzeOutcome : Except String String)
    (imgSvc : Nat → Except String (Option String))
    (masterOutcome : Except String String)
    (h : ∀ s ∈ scenes, jsTrim s = "") :
    handleGenerateStoryboard scenes hasImageFile selectedStyle promptFormat
        analyzeOutcome imgSvc masterOutcome =
      { calls := []
        generationError := some [noScenesError]
        result := .error noScenesError } := by
  have hfil : scenes.filter (fun s => jsTrim s ≠ "") = [] := by
    rw [List.filter_eq_nil_iff]
    intro a ha
    simp [h a ha]
  simp only [handleGenerateStoryboard, hfil]
  rfl

theorem handleGenerateStoryboard_master_err (scenes : List String)
    (hasImageFile : Bool) (selectedStyle : String)
    (promptFormat : PromptFormat) (analyzeOutcome : Except String String)
    (imgSvc : Nat → Except String (Option String)) (e : String)
    (hne : (scenes.filter (fun s => jsTrim s ≠ "")).length ≠ 0) :
    handleGenerateStoryboard scenes hasImageFile selectedStyle promptFormat
        analyzeOutcome imgSvc (.error e) =
      { calls :=
          (resolveStyle selectedStyle hasImageFile analyzeOutcome).calls ++
            storyboardImageCalls selectedStyle
              (resolveStyle selectedStyle hasImageFile analyzeOutcome).imageStyleKeywords
              imgSvc scenes ++
            [Call.generateMasterPrompt (storyboardPromptParts scenes
              (resolveStyle selectedStyle hasImageFile analyzeOutcome).styleGuide
              (storyboardSceneImages selectedStyle
                (resolveStyle selectedStyle hasImageFile analyzeOutcome).imageStyleKeywords
                imgSvc scenes))]
        generationError := some fatalErrorLines
        result := .error "Could not generate storyboard." } := by
  simp only [handleGenerateStoryboard]
  rw [if_neg hne]

theorem handleGenerateStoryboard_master_ok (scenes : List String)
    (hasImageFile : Bool) (selectedStyle : String)
    (promptFormat : PromptFormat) (analyzeOutcome : Except String String)
    (imgSvc : Nat → Except String (Option String)) (m : String)
    (hne : (scenes.filter (fun s => jsTrim s ≠ "")).length ≠ 0) :
    handleGenerateStoryboard scenes hasImageFile selectedStyle promptFormat
        analyzeOutcome imgSvc (.ok m) =
      { calls :=
          (resolveStyle selectedStyle hasImageFile analyzeOutcome).calls ++
            storyboardImageCalls selectedStyle
              (resolveStyle selectedStyle hasImageFile analyzeOutcome).imageStyleKeywords
              imgSvc scenes ++
            [Call.generateMasterPrompt (storyboardPromptParts scenes
              (resolveStyle selectedStyle hasImageFile analyzeOutcome).styleGuide
              (storyboardSceneImages selectedStyle
                (resolveStyle selectedStyle hasImageFile analyzeOutcome).imageStyleKeywords
                imgSvc scenes))]
        generationError := none
        result := .ok
          { prompts :=
              if promptFormat = PromptFormat.json then postProcessJsonStr m else m
            sceneImages := storyboardSceneImages selectedStyle
              (resolveStyle selectedStyle hasImageFile analyzeOutcome).imageStyleKeywords
              imgSvc scenes } } := by
  simp only [handleGenerateStoryboard]
  rw [if_neg hne]

/-! ## Further shared lemmas -/

theorem generateImageResult_ne_empty (svc : Except String (Option String)) :
    generateImageResult svc ≠ .ok "" := by
  match svc with
  | .error e => simp [generateImageResult]
  | .ok none => simp [generateImageResult]
  | .ok (some image) =>
    by_cases h : image = "" <;> simp [generateImageResult, h]

theorem storyboardSceneImages_getD_ne_empty (st kw : String)
    (svc : Nat → Except String (Option String)) (scenes : List String)
    (j : Nat) :
    (storyboardSceneImages st kw svc scenes).getD j none ≠ some "" := by
  rw [List.getD_eq_getElem?_getD, storyboardSceneImages_get]
  cases hsc : scenes[j]? with
  | none => simp
  | some sc =>
    simp only [Option.map_some', Option.getD_some, sceneSettle]
    by_cases h : jsTrim sc ≠ ""
    · rw [if_pos h]
      cases hg : generateImageResult (svc j) with
      | ok image =>
        have hne2 := generateImageResult_ne_empty (svc j)
        rw [hg] at hne2
        simp only [ne_eq, Option.some.injEq]
        intro himg
        exact hne2 (by rw [himg])
      | error e => simp
    · rw [if_neg h]
      simp

theorem sceneParts_eq_specSceneParts (sceneImages : List (Option String))
    (himg : ∀ j, sceneImages.getD j none ≠ some "") :
    ∀ (i : Nat) (scenes : List String),
      sceneParts sceneImages i scenes = specSceneParts sceneImages i scenes
  | _, [] => rfl
  | i, scene :: rest => by
    simp only [sceneParts, specSceneParts,
      sceneParts_eq_specSceneParts sceneImages himg (i + 1) rest]
    congr 1
    by_cases h : jsTrim scene ≠ ""
    · rw [if_pos h, if_pos h]
      congr 1
      match hv : sceneImages.getD i none with
      | none => rfl
      | some b =>
        have hb : b ≠ "" := by
          intro hb
          exact himg i (by rw [hv, hb])
        simp [hb]
    · rw [if_neg h, if_neg h]

theorem imageCallCount_resolveStyle (st : String) (b : Bool)
    (ao : Except String String) :
    imageCallCount (resolveStyle st b ao).calls = 0 := by
  match b, ao with
  | true, .ok k => rfl
  | true, .error e => rfl
  | false, _ => rfl

theorem imageCallCount_map (l : List String) (f : String → String) :
    imageCallCount (l.map (fun sc => Call.generateImage (f sc))) = l.length := by
  induction l with
  | nil => rfl
  | cons x xs ih => simp [imageCallCount, List.filter_cons] at ih ⊢; exact ih

theorem imageCallCount_append (a b : List Call) :
    imageCallCount (a ++ b) = imageCallCount a + imageCallCount b := by
  simp [imageCallCount, List.filter_append]

theorem not_infix_append_of_head :
    ∀ (c : List Char) {p t : List Char}, p ≠ [] →
      (∀ ch, p.head? = some ch → ch ∉ c) → ¬ p <:+: t → ¬ p <:+: c ++ t
  | [], p, t, _, _, ht => by simpa using ht
  | x :: c, p, t, hne, hhead, ht => by
    intro hinf
    rw [List.cons_append] at hinf
    rcases List.infix_cons_iff.mp hinf with hpre | hinf'
    · match p, hne with
      | q :: qs, _ =>
        obtain ⟨w, hw⟩ := hpre
        have hqx : q = x := by
          have := congrArg (fun l => l.head?) hw
          simpa using this
        exact hhead q rfl (by simp [hqx])
    · exact not_infix_append_of_head c hne
        (fun ch h hc => hhead ch h (by simp [hc])) ht hinf'

/-! ## Claim C3 -/

/-- C3: for a scene array in which every entry is empty or whitespace after
trimming, the orchestrator fails immediately with the user-facing
"add at least one scene" error and issues zero service calls (no style
analysis, no image generation, no master synthesis). -/
theorem C3_all_empty_validation (scenes : List String) (hasImageFile : Bool)
    (selectedStyle : String) (promptFormat : PromptFormat)
    (analyzeOutcome : Except String String)
    (imgSvc : Nat → Except String (Option String))
    (masterOutcome : Except String String)
    (h : ∀ s ∈ scenes, jsTrim s = "") :
    (handleGenerateStoryboard scenes hasImageFile selectedStyle promptFormat
        analyzeOutcome imgSvc masterOutcome).calls = [] ∧
    (handleGenerateStoryboard scenes hasImageFile selectedStyle promptFormat
        analyzeOutcome imgSvc masterOutcome).generationError =
      some ["Please add at least one scene to the storyboard."] ∧
    (handleGenerateStoryboard scenes hasImageFile selectedStyle promptFormat
        analyzeOutcome imgSvc masterOutcome).result =
      .error "Please add at least one scene to the storyboard." := by
  rw [handleGenerateStoryboard_of_allEmpty scenes hasImageFile selectedStyle
    promptFormat analyzeOutcome imgSvc masterOutcome h]
  exact ⟨rfl, rfl, rfl⟩

/-- Witness for C3 at a concrete all-empty scene array. -/
theorem C3_all_empty_validation_witness :
    (∀ s ∈ ["", "   ", "\t\n"], jsTrim s = "") ∧
    ((handleGenerateStoryboard ["", "   ", "\t\n"] true "Noir Thriller"
        PromptFormat.json (.ok "kw") (fun _ => .ok (some "IMG"))
        (.ok "MASTER")).calls = [] ∧
     (handleGenerateStoryboard ["", "   ", "\t\n"] true "Noir Thriller"
        PromptFormat.json (.ok "kw") (fun _ => .ok (some "IMG"))
        (.ok "MASTER")).generationError =
       some ["Please add at least one scene to the storyboard."] ∧
     (handleGenerateStoryboard ["", "   ", "\t\n"] true "Noir Thriller"
        PromptFormat.json (.ok "kw") (fun _ => .ok (some "IMG"))
        (.ok "MASTER")).result =
       .error "Please add at least one scene to the storyboard.") :=
  ⟨by decide,
   C3_all_empty_validation ["", "   ", "\t\n"] true "Noir Thriller"
     PromptFormat.json (.ok "kw") (fun _ => .ok (some "IMG")) (.ok "MASTER")
     (by decide)⟩

/-! ## Claim C4 -/

/-- C4: when the master-synthesis call fails, the whole operation fails —
the orchestrator returns no partial result, sets the fixed two-line
user-facing error list, and re-throws the generic "could not generate
storyboard" error. -/
theorem C4_master_failure_fatal (scenes : List String) (hasImageFile : Bool)
    (selectedStyle : String) (promptFormat : PromptFormat)
    (analyzeOutcome : Except String String)
    (imgSvc : Nat → Except String (Option String)) (e : String)
    (hne : (scenes.filter (fun s => jsTrim s ≠ "")).length ≠ 0) :
    (handleGenerateStoryboard scenes hasImageFile selectedStyle promptFormat
        analyzeOutcome imgSvc (.error e)).generationError =
      some ["Failed to generate storyboard.",
        "Please check your connection or API key and try again."] ∧
    (handleGenerateStoryboard scenes hasImageFile selectedStyle promptFormat
        analyzeOutcome imgSvc (.error e)).result =
      .error "Could not generate storyboard." := by
  rw [handleGenerateStoryboard_master_err scenes hasImageFile selectedStyle
    promptFormat analyzeOutcome imgSvc e hne]
  exact ⟨rfl, rfl⟩

/-- Witness for C4 at a concrete run whose master call fails. -/
theorem C4_master_failure_fatal_witness :
    ((["first scene"].filter (fun s => jsTrim s ≠ "")).length ≠ 0) ∧
    ((handleGenerateStoryboard ["first scene"] false "S" PromptFormat.classic
        (.error "unused") (fun _ => .ok (some "IMG"))
        (.error "boom")).generationError =
      some ["Failed to generate storyboard.",
        "Please check your connection or API key and try again."] ∧
     (handleGenerateStoryboard ["first scene"] false "S" PromptFormat.classic
        (.error "unused") (fun _ => .ok (some "IMG"))
        (.error "boom")).result = .error "Could not generate storyboard.") :=
  ⟨by decide,
   C4_master_failure_fatal ["first scene"] false "S" PromptFormat.classic
     (.error "unused") (fun _ => .ok (some "IMG")) "boom" (by decide)⟩

/-! ## Claim C2 -/

/-- C2 as stated is false: for the scene array `["a", ""]` (which contains a
non-empty entry) only one image-generation call is issued, not one per scene,
and the returned scene-image sequence has length 2, which differs from the
single call issued. -/
theorem C2_counterexample :
    imageCallCount (handleGenerateStoryboard ["a", ""] false "S"
        PromptFormat.classic (.error "unused") (fun _ => .ok (some "I"))
        (.ok "M")).calls = 1 ∧
    (["a", ""] : List String).length = 2 ∧
    (handleGenerateStoryboard ["a", ""] false "S" PromptFormat.classic
        (.error "unused") (fun _ => .ok (some "I")) (.ok "M")).result =
      .ok { prompts := "M", sceneImages := [some "I", none] } :=
  ⟨rfl, rfl, rfl⟩

/-- C2 corrected: the orchestrator issues exactly one image-generation call
per scene that is non-empty after trimming (empty scenes issue none), and
the returned scene-image sequence has exactly one entry per scene of the
input array. -/
theorem C2_amended_call_count (scenes : List String) (hasImageFile : Bool)
    (selectedStyle : String) (promptFormat : PromptFormat)
    (analyzeOutcome : Except String String)
    (imgSvc : Nat → Except String (Option String)) (m : String)
    (hne : (scenes.filter (fun s => jsTrim s ≠ "")).length ≠ 0) :
    imageCallCount (handleGenerateStoryboard scenes hasImageFile selectedStyle
        promptFormat analyzeOutcome imgSvc (.ok m)).calls =
      (scenes.filter (fun s => jsTrim s ≠ "")).length ∧
    ∀ r, (handleGenerateStoryboard scenes hasImageFile selectedStyle
        promptFormat analyzeOutcome imgSvc (.ok m)).result = .ok r →
      r.sceneImages.length = scenes.length := by
  rw [handleGenerateStoryboard_master_ok scenes hasImageFile selectedStyle
    promptFormat analyzeOutcome imgSvc m hne]
  constructor
  · rw [imageCallCount_append, imageCallCount_append,
      imageCallCount_resolveStyle, storyboardImageCalls_eq, imageCallCount_map]
    simp [imageCallCount]
  · intro r hr
    simp only [Except.ok.injEq] at hr
    rw [← hr]
    exact storyboardSceneImages_length _ _ _ _

/-- Witness for the corrected C2 at a concrete scene array with an empty
slot. -/
theorem C2_amended_call_count_witness :
    ((["a", "", "b"].filter (fun s => jsTrim s ≠ "")).length ≠ 0) ∧
    (imageCallCount (handleGenerateStoryboard ["a", "", "b"] false "S"
        PromptFormat.classic (.error "unused") (fun _ => .ok (some "I"))
        (.ok "M")).calls =
      ((["a", "", "b"] : List String).filter (fun s => jsTrim s ≠ "")).length ∧
     ∀ r, (handleGenerateStoryboard ["a", "", "b"] false "S"
        PromptFormat.classic (.error "unused") (fun _ => .ok (some "I"))
        (.ok "M")).result = .ok r →
       r.sceneImages.length = (["a", "", "b"] : List String).length) :=
  ⟨by decide,
   C2_amended_call_count ["a", "", "b"] false "S" PromptFormat.classic
     (.error "unused") (fun _ => .ok (some "I")) "M" (by decide)⟩

/-! ## Claim C1 -/

/-- C1 as stated is false: for the scene array `["a", ""]` exactly one
image-generation call is issued (for index 0) and it fails, yet the returned
scene-image sequence is `[null, null]` — two null entries, not exactly one,
because the empty scene at index 1 also yields null. -/
theorem C1_counterexample :
    imageCallCount (handleGenerateStoryboard ["a", ""] false "S"
        PromptFormat.classic (.error "unused") (fun _ => .error "FAIL")
        (.ok "M")).calls = 1 ∧
    (handleGenerateStoryboard ["a", ""] false "S" PromptFormat.classic
        (.error "unused") (fun _ => .error "FAIL") (.ok "M")).result =
      .ok { prompts := "M", sceneImages := [none, none] } ∧
    (([none, none] : List (Option String)).filter
      (fun o => o = none)).length = 2 :=
  ⟨rfl, rfl, rfl⟩

/-- C1 corrected: if exactly one issued per-scene image call fails, the
returned sequence has one entry per scene, a null at the failed scene's
index and at every empty-scene index, and the successful image at every
other non-empty scene's index; index alignment is preserved and the master
synthesis still runs and completes. -/
theorem C1_amended_single_failure (scenes : List String)
    (hasImageFile : Bool) (selectedStyle : String)
    (promptFormat : PromptFormat) (analyzeOutcome : Except String String)
    (imgSvc : Nat → Except String (Option String)) (m : String) (j : Nat)
    (hj : j < scenes.length) (hjne : jsTrim (scenes.getD j "") ≠ "")
    (hfail : ∃ e, generateImageResult (imgSvc j) = .error e)
    (hothers : ∀ i, i < scenes.length → i ≠ j →
      jsTrim (scenes.getD i "") ≠ "" →
      ∃ img, generateImageResult (imgSvc i) = .ok img) :
    ∃ r, (handleGenerateStoryboard scenes hasImageFile selectedStyle
        promptFormat analyzeOutcome imgSvc (.ok m)).result = .ok r ∧
      r.sceneImages.length = scenes.length ∧
      r.sceneImages.getD j none = none ∧
      (∀ i, i < scenes.length → jsTrim (scenes.getD i "") = "" →
        r.sceneImages.getD i none = none) ∧
      (∀ i, i < scenes.length → i ≠ j → jsTrim (scenes.getD i "") ≠ "" →
        ∃ img, generateImageResult (imgSvc i) = .ok img ∧
          r.sceneImages.getD i none = some img) ∧
      (∃ parts, Call.generateMasterPrompt parts ∈
        (handleGenerateStoryboard scenes hasImageFile selectedStyle
          promptFormat analyzeOutcome imgSvc (.ok m)).calls) := by
  have hne : (scenes.filter (fun s => jsTrim s ≠ "")).length ≠ 0 := by
    have hmem : scenes.getD j "" ∈ scenes := by
      rw [List.getD_eq_getElem scenes "" hj]
      exact List.getElem_mem hj
    have : scenes.getD j "" ∈ scenes.filter (fun s => jsTrim s ≠ "") :=
      List.mem_filter.mpr ⟨hmem, by simpa using hjne⟩
    intro hzero
    rw [List.length_eq_zero] at hzero
    rw [hzero] at this
    exact List.not_mem_nil _ this
  rw [handleGenerateStoryboard_master_ok scenes hasImageFile selectedStyle
    promptFormat analyzeOutcome imgSvc m hne]
  set kw := (resolveStyle selectedStyle hasImageFile analyzeOutcome).imageStyleKeywords
  refine ⟨_, rfl, storyboardSceneImages_length _ _ _ _, ?_, ?_, ?_, ?_⟩
  · -- null at the failed index
    rw [List.getD_eq_getElem?_getD, storyboardSceneImages_get,
      List.getElem?_eq_getElem hj]
    rw [List.getD_eq_getElem scenes "" hj] at hjne
    obtain ⟨e, he⟩ := hfail
    simp only [Option.map_some', Option.getD_some, sceneSettle, if_pos hjne, he]
  · -- null at every empty-scene index
    intro i hi hempty
    rw [List.getD_eq_getElem?_getD, storyboardSceneImages_get,
      List.getElem?_eq_getElem hi]
    rw [List.getD_eq_getElem scenes "" hi] at hempty
    simp [sceneSettle, hempty]
  · -- the successful image at every other non-empty index
    intro i hi hij hne2
    obtain ⟨img, himg⟩ := hothers i hi hij hne2
    refine ⟨img, himg, ?_⟩
    rw [List.getD_eq_getElem?_getD, storyboardSceneImages_get,
      List.getElem?_eq_getElem hi]
    rw [List.getD_eq_getElem scenes "" hi] at hne2
    simp only [Option.map_some', Option.getD_some, sceneSettle,
      if_pos hne2, himg]
  · -- the master-synthesis call is issued
    exact ⟨_, List.mem_append.mpr (Or.inr (List.mem_singleton.mpr rfl))⟩

/-- Witness for the corrected C1: three scenes with an empty middle slot,
the call for scene 0 fails, the call for scene 2 succeeds. -/
theorem C1_amended_single_failure_witness :
    (0 < (["candle", "", "sunrise"] : List String).length) ∧
    (jsTrim ((["candle", "", "sunrise"] : List String).getD 0 "") ≠ "") ∧
    (∃ e, generateImageResult ((fun i => if i = 0 then Except.error "boom"
      else Except.ok (some "IMG")) 0) = .error e) ∧
    (∃ r, (handleGenerateStoryboard ["candle", "", "sunrise"] false "S"
        PromptFormat.classic (.error "unused")
        (fun i => if i = 0 then Except.error "boom" else Except.ok (some "IMG"))
        (.ok "M")).result = .ok r ∧
      r.sceneImages.length = (["candle", "", "sunrise"] : List String).length ∧
      r.sceneImages.getD 0 none = none ∧
      (∀ i, i < (["candle", "", "sunrise"] : List String).length →
        jsTrim ((["candle", "", "sunrise"] : List String).getD i "") = "" →
        r.sceneImages.getD i none = none) ∧
      (∀ i, i < (["candle", "", "sunrise"] : List String).length → i ≠ 0 →
        jsTrim ((["candle", "", "sunrise"] : List String).getD i "") ≠ "" →
        ∃ img, generateImageResult ((fun i => if i = 0 then Except.error "boom"
            else Except.ok (some "IMG")) i) = .ok img ∧
          r.sceneImages.getD i none = some img) ∧
      (∃ parts, Call.generateMasterPrompt parts ∈
        (handleGenerateStoryboard ["candle", "", "sunrise"] false "S"
          PromptFormat.classic (.error "unused")
          (fun i => if i = 0 then Except.error "boom" else Except.ok (some "IMG"))
          (.ok "M")).calls)) :=
  ⟨by decide, by decide, ⟨"boom", rfl⟩,
   C1_amended_single_failure ["candle", "", "sunrise"] false "S"
     PromptFormat.classic (.error "unused")
     (fun i => if i = 0 then Except.error "boom" else Except.ok (some "IMG"))
     "M" 0 (by decide) (by decide) ⟨"boom", rfl⟩
     (fun i hi hij hne2 => by
       match i, hi with
       | 1, _ => exact absurd (by decide) hne2
       | 2, _ => exact ⟨"IMG", rfl⟩)⟩

/-! ## Claim C5 -/

/-- C5: with a reference image whose style analysis fails, the workflow
still completes, the resolved style guide is exactly the name-only
`Cinematic Style: <name>.` text (no image-derived keywords), the master
request carries that guide, and every per-scene image prompt is the named
style followed by the scene text, with no image-derived keywords. -/
theorem C5_style_analysis_failure (scenes : List String)
    (selectedStyle : String) (promptFormat : PromptFormat)
    (imgSvc : Nat → Except String (Option String)) (e m : String)
    (hstyle : selectedStyle ≠ "No Style") (hstyle2 : selectedStyle ≠ "")
    (hne : (scenes.filter (fun s => jsTrim s ≠ "")).length ≠ 0) :
    (handleGenerateStoryboard scenes true selectedStyle promptFormat
        (.error e) imgSvc (.ok m)).generationError = none ∧
    (handleGenerateStoryboard scenes true selectedStyle promptFormat
        (.error e) imgSvc (.ok m)).result =
      .ok { prompts :=
              if promptFormat = PromptFormat.json then postProcessJsonStr m
              else m
            sceneImages := storyboardSceneImages selectedStyle "" imgSvc scenes } ∧
    resolveStyle selectedStyle true (.error e) =
      { styleGuide := "Cinematic Style: " ++ selectedStyle ++ "."
        imageStyleKeywords := ""
        calls := [Call.analyzeImageStyle] } ∧
    (handleGenerateStoryboard scenes true selectedStyle promptFormat
        (.error e) imgSvc (.ok m)).calls =
      Call.analyzeImageStyle ::
        ((scenes.filter (fun s => jsTrim s ≠ "")).map
          (fun sc => Call.generateImage (fullScenePrompt selectedStyle "" sc)) ++
         [Call.generateMasterPrompt (storyboardPromptParts scenes
           ("Cinematic Style: " ++ selectedStyle ++ ".")
           (storyboardSceneImages selectedStyle "" imgSvc scenes))]) ∧
    ∀ sc, fullScenePrompt selectedStyle "" sc =
      (selectedStyle ++ ", cinematic shot depicting ") ++ jsTrim sc := by
  have hres : resolveStyle selectedStyle true (.error e) =
      { styleGuide := "Cinematic Style: " ++ selectedStyle ++ "."
        imageStyleKeywords := ""
        calls := [Call.analyzeImageStyle] } := by
    rw [show resolveStyle selectedStyle true (.error e) =
      { styleGuide := baseStyleGuide selectedStyle
        imageStyleKeywords := ""
        calls := [Call.analyzeImageStyle] } from rfl]
    simp only [baseStyleGuide, if_pos hstyle]
  have hprompt : ∀ sc, fullScenePrompt selectedStyle "" sc =
      (selectedStyle ++ ", cinematic shot depicting ") ++ jsTrim sc := by
    intro sc
    have hsfp : styleForPrompt selectedStyle "" = selectedStyle := by
      simp only [styleForPrompt, if_pos hstyle]
      rw [List.filter_cons_of_pos (by simpa using hstyle2),
        List.filter_cons_of_neg (by simp)]
      rfl
    have hlit : (", " : String) ++ "cinematic shot depicting " =
        ", cinematic shot depicting " := rfl
    simp only [fullScenePrompt, hsfp, if_pos hstyle2]
    rw [String.append_assoc selectedStyle ", " "cinematic shot depicting ", hlit]
  rw [handleGenerateStoryboard_master_ok scenes true selectedStyle
    promptFormat (.error e) imgSvc m hne]
  rw [hres]
  refine ⟨rfl, rfl, rfl, ?_, hprompt⟩
  show [Call.analyzeImageStyle] ++
      storyboardImageCalls selectedStyle "" imgSvc scenes ++
      [Call.generateMasterPrompt (storyboardPromptParts scenes
        ("Cinematic Style: " ++ selectedStyle ++ ".")
        (storyboardSceneImages selectedStyle "" imgSvc scenes))] = _
  rw [storyboardImageCalls_eq]
  rfl

/-- Witness for C5 at a concrete run with a failed style analysis. -/
theorem C5_style_analysis_failure_witness :
    (("Noir Thriller" : String) ≠ "No Style") ∧
    (("Noir Thriller" : String) ≠ "") ∧
    ((["a scene"].filter (fun s => jsTrim s ≠ "")).length ≠ 0) ∧
    ((handleGenerateStoryboard ["a scene"] true "Noir Thriller"
        PromptFormat.classic (.error "style analysis failed")
        (fun _ => .ok (some "IMG")) (.ok "M")).generationError = none ∧
     (handleGenerateStoryboard ["a scene"] true "Noir Thriller"
        PromptFormat.classic (.error "style analysis failed")
        (fun _ => .ok (some "IMG")) (.ok "M")).result =
       .ok { prompts :=
               if PromptFormat.classic = PromptFormat.json
               then postProcessJsonStr "M" else "M"
             sceneImages := storyboardSceneImages "Noir Thriller" ""
               (fun _ => .ok (some "IMG")) ["a scene"] } ∧
     resolveStyle "Noir Thriller" true (.error "style analysis failed") =
       { styleGuide := "Cinematic Style: " ++ "Noir Thriller" ++ "."
         imageStyleKeywords := ""
         calls := [Call.analyzeImageStyle] } ∧
     (handleGenerateStoryboard ["a scene"] true "Noir Thriller"
        PromptFormat.classic (.error "style analysis failed")
        (fun _ => .ok (some "IMG")) (.ok "M")).calls =
       Call.analyzeImageStyle ::
         (((["a scene"] : List String).filter (fun s => jsTrim s ≠ "")).map
           (fun sc => Call.generateImage (fullScenePrompt "Noir Thriller" "" sc)) ++
          [Call.generateMasterPrompt (storyboardPromptParts ["a scene"]
            ("Cinematic Style: " ++ "Noir Thriller" ++ ".")
            (storyboardSceneImages "Noir Thriller" ""
              (fun _ => .ok (some "IMG")) ["a scene"]))]) ∧
     ∀ sc, fullScenePrompt "Noir Thriller" "" sc =
       ("Noir Thriller" ++ ", cinematic shot depicting ") ++ jsTrim sc) :=
  ⟨by decide, by decide, by decide,
   C5_style_analysis_failure ["a scene"] "Noir Thriller" PromptFormat.classic
     (fun _ => .ok (some "IMG")) "style analysis failed" "M"
     (by decide) (by decide) (by decide)⟩

/-! ## Claim C9 -/

/-- C9: with the "No Style" sentinel selected and no image-derived keywords,
the per-scene image prompt is exactly `cinematic shot depicting ` followed by
the trimmed scene text, and the sentinel never appears in it (for scene text
not containing the sentinel itself), even though the style guide sent to
master synthesis is the fallback sentence in that case. -/
theorem C9_no_style_sentinel (scene : String) (scenes : List String)
    (analyzeOutcome : Except String String)
    (imgSvc : Nat → Except String (Option String))
    (_hscene : jsTrim scene ≠ "")
    (hfree : ¬ (("No Style".data) <:+: (jsTrim scene).data)) :
    fullScenePrompt "No Style" "" scene =
      "cinematic shot depicting " ++ jsTrim scene ∧
    ¬ (("No Style".data) <:+: (fullScenePrompt "No Style" "" scene).data) ∧
    resolveStyle "No Style" false analyzeOutcome =
      { styleGuide := "No specific cinematic style has been selected; rely on the reference image (if provided) and scene descriptions for style cues."
        imageStyleKeywords := ""
        calls := [] } ∧
    storyboardImageCalls "No Style" "" imgSvc scenes =
      (scenes.filter (fun s => jsTrim s ≠ "")).map
        (fun sc => Call.generateImage ("cinematic shot depicting " ++ jsTrim sc)) := by
  refine ⟨rfl, ?_, rfl, ?_⟩
  · have hdata : (fullScenePrompt "No Style" "" scene).data =
        ("cinematic shot depicting ".data) ++ (jsTrim scene).data := by
      rw [show fullScenePrompt "No Style" "" scene =
        "cinematic shot depicting " ++ jsTrim scene from rfl]
      exact String.data_append _ _
    rw [hdata]
    refine not_infix_append_of_head _ (by decide) ?_ hfree
    intro ch h
    have hch : ch = 'N' := by
      have : ("No Style".data).head? = some 'N' := rfl
      rw [this] at h
      exact (Option.some.injEq _ _).mp h.symm
    rw [hch]
    decide
  · rw [storyboardImageCalls_eq]
    rfl

/-- Witness for C9 at a concrete non-empty scene. -/
theorem C9_no_style_sentinel_witness :
    (jsTrim " a dark room " ≠ "") ∧
    (¬ (("No Style".data) <:+: (jsTrim " a dark room ").data)) ∧
    (fullScenePrompt "No Style" "" " a dark room " =
       "cinematic shot depicting " ++ jsTrim " a dark room " ∧
     ¬ (("No Style".data) <:+:
        (fullScenePrompt "No Style" "" " a dark room ").data) ∧
     resolveStyle "No Style" false (.ok "unused") =
       { styleGuide := "No specific cinematic style has been selected; rely on the reference image (if provided) and scene descriptions for style cues."
         imageStyleKeywords := ""
         calls := [] } ∧
     storyboardImageCalls "No Style" "" (fun _ => .ok (some "I")) ["x"] =
       ((["x"] : List String).filter (fun s => jsTrim s ≠ "")).map
         (fun sc => Call.generateImage ("cinematic shot depicting " ++ jsTrim sc))) :=
  ⟨by decide, by decide,
   C9_no_style_sentinel " a dark room " ["x"] (.ok "unused")
     (fun _ => .ok (some "I")) (by decide) (by decide)⟩

/-! ## Lemmas about trimming -/

theorem dropWhile_head_false (p : Char → Bool) :
    ∀ (l : List Char) (c : Char) (cs : List Char),
      l.dropWhile p = c :: cs → p c = false
  | [], _, _, h => by simp at h
  | x :: l, c, cs, h => by
    by_cases hx : p x
    · rw [List.dropWhile_cons_of_pos hx] at h
      exact dropWhile_head_false p l c cs h
    · rw [List.dropWhile_cons_of_neg hx] at h
      cases h
      simpa using hx

theorem dropWhile_idem (p : Char → Bool) (l : List Char) :
    (l.dropWhile p).dropWhile p = l.dropWhile p := by
  cases h : l.dropWhile p with
  | nil => rfl
  | cons c cs =>
    exact List.dropWhile_cons_of_neg (by simp [dropWhile_head_false p l c cs h])

theorem trimmed_reverse_dropWhile (X : List Char)
    (hX : ∀ c cs, X = c :: cs → isTrimWs c = false) :
    (X.reverse.dropWhile isTrimWs).reverse.dropWhile isTrimWs =
      (X.reverse.dropWhile isTrimWs).reverse := by
  cases hr : (X.reverse.dropWhile isTrimWs).reverse with
  | nil => rfl
  | cons c t =>
    have hYne : X.reverse.dropWhile isTrimWs ≠ [] := by
      intro hnil
      rw [hnil] at hr
      simp at hr
    obtain ⟨w, hw⟩ := List.dropWhile_suffix (l := X.reverse) isTrimWs
    have hlast : (X.reverse.dropWhile isTrimWs).getLast? = X.head? := by
      conv_lhs => rw [← List.getLast?_append_of_ne_nil w hYne, hw]
      exact List.getLast?_reverse X
    have hc : (X.reverse.dropWhile isTrimWs).getLast? = some c := by
      rw [← List.head?_reverse, hr]
      rfl
    rw [hlast] at hc
    cases hXl : X with
    | nil => rw [hXl] at hc; cases hc
    | cons x0 xs =>
      rw [hXl] at hc
      simp only [List.head?_cons, Option.some.injEq] at hc
      have hcf : isTrimWs c = false := hc ▸ hX x0 xs hXl
      exact List.dropWhile_cons_of_neg (by simp [hcf])

theorem jsTrimList_idem (s : List Char) :
    jsTrimList (jsTrimList s) = jsTrimList s := by
  have h1 : (jsTrimList s).dropWhile isTrimWs = jsTrimList s :=
    trimmed_reverse_dropWhile (s.dropWhile isTrimWs)
      (fun c cs h => dropWhile_head_false isTrimWs s c cs h)
  conv_lhs => rw [jsTrimList]
  rw [h1,
    show (jsTrimList s).reverse = (s.dropWhile isTrimWs).reverse.dropWhile isTrimWs from by
      rw [jsTrimList, List.reverse_reverse],
    dropWhile_idem, jsTrimList]

/-! ## Lemmas about the marker split -/

theorem takeWhile_append_newline (p : Char → Bool) (hp : p '\n' = false) :
    ∀ (a b : List Char), (∀ x ∈ a, p x = true) →
      (a ++ '\n' :: b).takeWhile p = a
  | [], b, _ => by simp [hp]
  | x :: a, b, h => by
    have hx := h x (by simp)
    simp only [List.cons_append, List.takeWhile_cons, hx, if_true]
    rw [takeWhile_append_newline p hp a b (fun y hy => h y (by simp [hy]))]

theorem takeWhile_newline_irrelevant (p : Char → Bool) (hp : p '\n' = false) :
    ∀ (t y z : List Char),
      (t ++ '\n' :: y).takeWhile p = (t ++ '\n' :: z).takeWhile p
  | [], y, z => by simp [hp]
  | x :: t, y, z => by
    by_cases hx : p x
    · simp only [List.cons_append, List.takeWhile_cons, hx, if_true]
      rw [takeWhile_newline_irrelevant p hp t y z]
    · simp only [List.cons_append, List.takeWhile_cons, if_neg hx]

theorem markerMatchLen_before_newline (t y : List Char) :
    markerMatchLen (t ++ '\n' :: y) = markerMatchLen (t ++ ['\n']) := by
  rw [markerMatchLen, markerMatchLen,
    takeWhile_newline_irrelevant _ (by decide) t y []]

theorem markerMatchLen_newline (x : List Char) :
    markerMatchLen ('\n' :: x) = none := rfl

theorem markerMatchLen_scene1 (x : List Char) :
    markerMatchLen ('-' :: ("-- SCENE 1 ---".data ++ '\n' :: x)) = some 15 := by
  rw [show ('-' :: ("-- SCENE 1 ---".data ++ '\n' :: x) : List Char) =
    "--- SCENE 1 ---".data ++ '\n' :: x from rfl]
  rw [markerMatchLen,
    takeWhile_append_newline _ (by decide) ("--- SCENE 1 ---".data) x (by decide)]
  decide

theorem markerMatchLen_scene2 (x : List Char) :
    markerMatchLen ('-' :: ("-- SCENE 2 ---".data ++ '\n' :: x)) = some 15 := by
  rw [show ('-' :: ("-- SCENE 2 ---".data ++ '\n' :: x) : List Char) =
    "--- SCENE 2 ---".data ++ '\n' :: x from rfl]
  rw [markerMatchLen,
    takeWhile_append_newline _ (by decide) ("--- SCENE 2 ---".data) x (by decide)]
  decide

theorem splitMarkersAux_cons_match (acc : List Char) (c : Char)
    (rest : List Char) (len : Nat) (h : markerMatchLen (c :: rest) = some len) :
    splitMarkersAux acc (c :: rest) =
      acc.reverse :: splitMarkersAux [] (rest.drop (len - 1)) := by
  rw [splitMarkersAux, h]

theorem splitMarkersAux_cons_none (acc : List Char) (c : Char)
    (rest : List Char) (h : markerMatchLen (c :: rest) = none) :
    splitMarkersAux acc (c :: rest) = splitMarkersAux (c :: acc) rest := by
  rw [splitMarkersAux, h]

theorem splitMarkersAux_append_no_match :
    ∀ (a acc r : List Char),
      (∀ t, t <:+ a → t ≠ [] → markerMatchLen (t ++ r) = none) →
      splitMarkersAux acc (a ++ r) = splitMarkersAux (a.reverse ++ acc) r
  | [], acc, r, _ => by simp
  | x :: a, acc, r, h => by
    have hx : markerMatchLen (x :: (a ++ r)) = none := by
      have := h (x :: a) (List.suffix_refl _) (by simp)
      simpa using this
    rw [List.cons_append, splitMarkersAux_cons_none acc x (a ++ r) hx,
      splitMarkersAux_append_no_match a (x :: acc) r
        (fun t ht hne => h t (ht.trans (List.suffix_cons x a)) hne)]
    simp [List.reverse_cons, List.append_assoc]

theorem splitMarkersAux_nil (acc : List Char) :
    splitMarkersAux acc [] = [acc.reverse] := by
  rw [splitMarkersAux]

theorem splitMarkersAux_no_match :
    ∀ (a acc : List Char),
      (∀ t, t <:+ a → t ≠ [] → markerMatchLen t = none) →
      splitMarkersAux acc a = [acc.reverse ++ a]
  | [], acc, _ => by simp [splitMarkersAux_nil]
  | x :: a, acc, h => by
    rw [splitMarkersAux_cons_none acc x a (h (x :: a) (List.suffix_refl _) (by simp)),
      splitMarkersAux_no_match a (x :: acc)
        (fun t ht hne => h t (ht.trans (List.suffix_cons x a)) hne)]
    simp

/-- The split of a classic two-scene master prompt: an empty leading piece,
then the first scene's body (with its surrounding newlines), then the second
scene's body. -/
theorem splitMarkers_two_scenes (c1 c2 : List Char)
    (h1 : ∀ t ∈ c1.tails, markerMatchLen (t ++ ['\n']) = none)
    (h2 : ∀ t ∈ c2.tails, markerMatchLen t = none) :
    splitMarkers ("--- SCENE 1 ---".data ++ '\n' ::
        (c1 ++ '\n' :: ("--- SCENE 2 ---".data ++ '\n' :: c2))) =
      [[], '\n' :: (c1 ++ ['\n']), '\n' :: c2] := by
  rw [splitMarkers,
    show ("--- SCENE 1 ---".data ++ '\n' ::
        (c1 ++ '\n' :: ("--- SCENE 2 ---".data ++ '\n' :: c2)) : List Char) =
      '-' :: ("-- SCENE 1 ---".data ++ '\n' ::
        (c1 ++ '\n' :: ("--- SCENE 2 ---".data ++ '\n' :: c2))) from rfl,
    splitMarkersAux_cons_match _ '-' _ 15
      (markerMatchLen_scene1 (c1 ++ '\n' :: ("--- SCENE 2 ---".data ++ '\n' :: c2)))]
  rw [show (("-- SCENE 1 ---".data ++ '\n' ::
      (c1 ++ '\n' :: ("--- SCENE 2 ---".data ++ '\n' :: c2))).drop (15 - 1) : List Char) =
    '\n' :: (c1 ++ '\n' :: ("--- SCENE 2 ---".data ++ '\n' :: c2)) from rfl]
  rw [splitMarkersAux_cons_none [] '\n' _ (markerMatchLen_newline _),
    splitMarkersAux_append_no_match c1 ['\n']
      ('\n' :: ("--- SCENE 2 ---".data ++ '\n' :: c2))
      (fun t ht hne => by
        rw [markerMatchLen_before_newline t ("--- SCENE 2 ---".data ++ '\n' :: c2)]
        exact h1 t ((List.mem_tails t c1).mpr ht)),
    splitMarkersAux_cons_none _ '\n' _ (markerMatchLen_newline _),
    show ("--- SCENE 2 ---".data ++ '\n' :: c2 : List Char) =
      '-' :: ("-- SCENE 2 ---".data ++ '\n' :: c2) from rfl,
    splitMarkersAux_cons_match _ '-' _ 15 (markerMatchLen_scene2 c2),
    show (("-- SCENE 2 ---".data ++ '\n' :: c2).drop (15 - 1) : List Char) =
      '\n' :: c2 from rfl,
    splitMarkersAux_cons_none [] '\n' c2 (markerMatchLen_newline _),
    splitMarkersAux_no_match c2 ['\n']
      (fun t ht hne => h2 t ((List.mem_tails t c2).mpr ht))]
  simp

theorem jsTrimList_newline_wrap (c : List Char) :
    jsTrimList ('\n' :: (c ++ ['\n'])) = jsTrimList c := by
  rw [jsTrimList, jsTrimList, List.dropWhile_cons_of_pos (by decide),
    List.dropWhile_append]
  cases hd : c.dropWhile isTrimWs with
  | nil => rfl
  | cons d ds =>
    simp only [List.isEmpty_cons, Bool.false_eq_true, if_false]
    rw [List.reverse_append]
    simp only [List.reverse_cons, List.reverse_nil, List.nil_append,
      List.singleton_append]
    rw [List.dropWhile_cons_of_pos (by decide)]

/-- A string starting with two dashes is not valid JSON (a number may start
with one dash, but the next character must be a digit). -/
theorem parseValue_double_dash (fuel : Nat) (x : List Char) :
    parseValue (fuel + 1) ('-' :: '-' :: x) = none := rfl

theorem jsonParse_double_dash (x : List Char) :
    jsonParse ('-' :: '-' :: x) = none := by
  rw [jsonParse, parseValue_double_dash]

/-! ## Claim C8 -/

/-- C8: the first-example-prompt extraction of `handleGenerateScene`.
First conjunct: on classic-format text with two blocks delimited by
`--- SCENE 1 ---` and `--- SCENE 2 ---` (and no further marker matches
inside the block bodies), the extraction returns exactly the content between
the two markers, trimmed.  Remaining conjuncts: the fixed fallback order —
a JSON array of objects with a non-empty `generation_prompt` wins first;
otherwise a `scenes` wrapper object with such an array; marker-based text
splitting is used on JSON parse failure. -/
theorem C8_extraction_shapes :
    (∀ c1 c2 : List Char,
      (∀ t ∈ c1.tails, markerMatchLen (t ++ ['\n']) = none) →
      (∀ t ∈ c2.tails, markerMatchLen t = none) →
      jsTrimList c1 ≠ [] →
      extractFinalPrompt ("--- SCENE 1 ---".data ++ '\n' ::
        (c1 ++ '\n' :: ("--- SCENE 2 ---".data ++ '\n' :: c2))) =
        jsTrimList c1) ∧
    (∀ (mp : List Char) (x : JValue) (rest : List JValue) (p : List Char),
      jsonParse mp = some (.arr (x :: rest)) →
      genPromptField x = some p → p ≠ [] → extractCandidate mp = p) ∧
    (∀ (mp : List Char) (fs : List (List Char × JValue)) (y : JValue)
        (t : List JValue) (p : List Char),
      jsonParse mp = some (.obj fs) →
      jGet fs ("scenes".data) = some (.arr (y :: t)) →
      genPromptField y = some p → p ≠ [] → extractCandidate mp = p) ∧
    (∀ (mp first second : List Char) (rest : List (List Char)),
      jsonParse mp = none →
      splitMarkers mp = first :: second :: rest →
      extractCandidate mp = jsTrimList second) := by
  refine ⟨?_, ?_, ?_, ?_⟩
  · intro c1 c2 h1 h2 h3
    have hparse : jsonParse ("--- SCENE 1 ---".data ++ '\n' ::
        (c1 ++ '\n' :: ("--- SCENE 2 ---".data ++ '\n' :: c2))) = none :=
      jsonParse_double_dash _
    have hcand : extractCandidate ("--- SCENE 1 ---".data ++ '\n' ::
        (c1 ++ '\n' :: ("--- SCENE 2 ---".data ++ '\n' :: c2))) =
        jsTrimList c1 := by
      simp only [extractCandidate, hparse, splitMarkers_two_scenes c1 c2 h1 h2]
      exact jsTrimList_newline_wrap c1
    simp only [extractFinalPrompt, hcand, jsTrimList_idem]
    rw [if_neg h3]
  · intro mp x rest p hparse hgen hp
    simp only [extractCandidate, hparse, firstScenePromptOf, hgen]
    rw [if_pos hp]
  · intro mp fs y t p hparse hscenes hgen hp
    simp only [extractCandidate, hparse, firstScenePromptOf, hscenes, hgen]
    rw [if_pos hp]
  · intro mp first second rest hparse hsplit
    simp only [extractCandidate, hparse, hsplit]

/-- Witness for C8: a concrete two-scene classic text, and a concrete JSON
array response. -/
theorem C8_extraction_shapes_witness :
    ((∀ t ∈ ("first scene body".data).tails,
        markerMatchLen (t ++ ['\n']) = none) ∧
     (∀ t ∈ ("second body".data).tails, markerMatchLen t = none) ∧
     jsTrimList ("first scene body".data) ≠ [] ∧
     extractFinalPrompt ("--- SCENE 1 ---".data ++ '\n' ::
       ("first scene body".data ++ '\n' ::
         ("--- SCENE 2 ---".data ++ '\n' :: "second body".data))) =
       jsTrimList ("first scene body".data)) ∧
    (jsonParse ("[\x7b\"generation_prompt\": \"use me\"\x7d]".data) =
       some (.arr (.obj [("generation_prompt".data, .str ("use me".data))] :: [])) ∧
     genPromptField (.obj [("generation_prompt".data, .str ("use me".data))]) =
       some ("use me".data) ∧
     ("use me".data : List Char) ≠ [] ∧
     extractCandidate ("[\x7b\"generation_prompt\": \"use me\"\x7d]".data) =
       "use me".data) :=
  ⟨⟨by decide, by decide, by decide,
    C8_extraction_shapes.1 ("first scene body".data) ("second body".data)
      (by decide) (by decide) (by decide)⟩,
   ⟨by rfl, by rfl, by decide,
    C8_extraction_shapes.2.1 ("[\x7b\"generation_prompt\": \"use me\"\x7d]".data)
      (.obj [("generation_prompt".data, .str ("use me".data))]) []
      ("use me".data) (by rfl) (by rfl) (by decide)⟩⟩

/-! ## Claim C10 -/

/-- C10: for a non-empty master prompt, the single-scene preview flow never
submits an empty prompt: the submitted prompt is non-empty, and whenever the
extracted candidate trims to nothing, the entire unmodified master prompt is
used instead. -/
theorem C10_no_empty_prompt (mp : List Char) (hmp : mp ≠ []) :
    extractFinalPrompt mp ≠ [] ∧
    (jsTrimList (extractCandidate mp) = [] → extractFinalPrompt mp = mp) := by
  constructor
  · simp only [extractFinalPrompt]
    by_cases h : jsTrimList (extractCandidate mp) = []
    · rw [if_pos h]; exact hmp
    · rw [if_neg h]
      intro hc
      exact h (by rw [hc]; rfl)
  · intro h
    simp only [extractFinalPrompt]
    rw [if_pos h]

/-- Witness for C10 at a concrete whitespace-only master prompt, where the
marker split yields a whitespace-only candidate. -/
theorem C10_no_empty_prompt_witness :
    (("   ".data : List Char) ≠ []) ∧
    (extractFinalPrompt ("   ".data) ≠ [] ∧
     (jsTrimList (extractCandidate ("   ".data)) = [] →
       extractFinalPrompt ("   ".data) = "   ".data)) :=
  ⟨by decide, C10_no_empty_prompt ("   ".data) (by decide)⟩

/-! ## Claim C7 -/

/-- C7: the master-synthesis request consists, in order, of the fixed
framing text part, the style-guidance text part, and then for each non-empty
scene (in original order) one text part followed by an inlined image part
exactly when a generated preview image exists for that scene's index; empty
scenes contribute no parts.  The request with exactly these parts is among
the issued calls. -/
theorem C7_master_request_shape (scenes : List String) (hasImageFile : Bool)
    (selectedStyle : String) (promptFormat : PromptFormat)
    (analyzeOutcome : Except String String)
    (imgSvc : Nat → Except String (Option String))
    (masterOutcome : Except String String)
    (hne : (scenes.filter (fun s => jsTrim s ≠ "")).length ≠ 0) :
    Call.generateMasterPrompt (storyboardPromptParts scenes
        (resolveStyle selectedStyle hasImageFile analyzeOutcome).styleGuide
        (storyboardSceneImages selectedStyle
          (resolveStyle selectedStyle hasImageFile analyzeOutcome).imageStyleKeywords
          imgSvc scenes)) ∈
      (handleGenerateStoryboard scenes hasImageFile selectedStyle promptFormat
        analyzeOutcome imgSvc masterOutcome).calls ∧
    storyboardPromptParts scenes
        (resolveStyle selectedStyle hasImageFile analyzeOutcome).styleGuide
        (storyboardSceneImages selectedStyle
          (resolveStyle selectedStyle hasImageFile analyzeOutcome).imageStyleKeywords
          imgSvc scenes) =
      Part.text framingInstruction ::
        Part.text ("--- STYLE GUIDANCE ---\n" ++
          (resolveStyle selectedStyle hasImageFile analyzeOutcome).styleGuide) ::
        specSceneParts (storyboardSceneImages selectedStyle
          (resolveStyle selectedStyle hasImageFile analyzeOutcome).imageStyleKeywords
          imgSvc scenes) 0 scenes := by
  constructor
  · cases masterOutcome with
    | error e =>
      rw [handleGenerateStoryboard_master_err scenes hasImageFile
        selectedStyle promptFormat analyzeOutcome imgSvc e hne]
      exact List.mem_append.mpr (Or.inr (List.mem_singleton.mpr rfl))
    | ok m =>
      rw [handleGenerateStoryboard_master_ok scenes hasImageFile
        selectedStyle promptFormat analyzeOutcome imgSvc m hne]
      exact List.mem_append.mpr (Or.inr (List.mem_singleton.mpr rfl))
  · rw [storyboardPromptParts,
      sceneParts_eq_specSceneParts _
        (storyboardSceneImages_getD_ne_empty _ _ _ _) 0 scenes]

/-- Witness for C7 at a concrete run with an empty scene and one failed
image. -/
theorem C7_master_request_shape_witness :
    ((["a", "", "b"].filter (fun s => jsTrim s ≠ "")).length ≠ 0) ∧
    (Call.generateMasterPrompt (storyboardPromptParts ["a", "", "b"]
        (resolveStyle "S" false (.error "unused")).styleGuide
        (storyboardSceneImages "S"
          (resolveStyle "S" false (.error "unused")).imageStyleKeywords
          (fun i => if i = 0 then Except.error "boom" else Except.ok (some "I"))
          ["a", "", "b"])) ∈
      (handleGenerateStoryboard ["a", "", "b"] false "S" PromptFormat.classic
        (.error "unused")
        (fun i => if i = 0 then Except.error "boom" else Except.ok (some "I"))
        (.ok "M")).calls ∧
     storyboardPromptParts ["a", "", "b"]
        (resolveStyle "S" false (.error "unused")).styleGuide
        (storyboardSceneImages "S"
          (resolveStyle "S" false (.error "unused")).imageStyleKeywords
          (fun i => if i = 0 then Except.error "boom" else Except.ok (some "I"))
          ["a", "", "b"]) =
      Part.text framingInstruction ::
        Part.text ("--- STYLE GUIDANCE ---\n" ++
          (resolveStyle "S" false (.error "unused")).styleGuide) ::
        specSceneParts (storyboardSceneImages "S"
          (resolveStyle "S" false (.error "unused")).imageStyleKeywords
          (fun i => if i = 0 then Except.error "boom" else Except.ok (some "I"))
          ["a", "", "b"]) 0 ["a", "", "b"]) :=
  ⟨by decide,
   C7_master_request_shape ["a", "", "b"] false "S" PromptFormat.classic
     (.error "unused")
     (fun i => if i = 0 then Except.error "boom" else Except.ok (some "I"))
     (.ok "M") (by decide)⟩

/-! ## Round-trip lemmas: digits and numbers -/

theorem digitChar_spec : ∀ d < 10, (digitChar d).isDigit = true ∧
    (digitChar d).toNat - 48 = d ∧ (0 < d → digitChar d ≠ '0') := by
  decide

theorem isDigit_char_facts (c : Char) (h : c.isDigit = true) :
    isJsonWs c = false ∧ c ≠ ']' ∧ c ≠ '\x7d' ∧ c ≠ ',' ∧ c ≠ '-' := by
  refine ⟨?_, ?_, ?_, ?_, ?_⟩
  · cases hws : isJsonWs c with
    | false => rfl
    | true =>
      exfalso
      simp only [isJsonWs, Bool.or_eq_true, decide_eq_true_eq] at hws
      rcases hws with ((hc | hc) | hc) | hc <;> · rw [hc] at h; exact absurd h (by decide)
  all_goals · intro hc; rw [hc] at h; exact absurd h (by decide)

theorem natDigitsAux_spec : ∀ (fuel m : Nat), m < fuel →
    natDigitsAux fuel m ≠ [] ∧
    (∀ c ∈ natDigitsAux fuel m, c.isDigit = true) ∧
    digitsToNat (natDigitsAux fuel m) = m ∧
    (0 < m → (natDigitsAux fuel m).head? ≠ some '0')
  | 0, m, h => absurd h (by omega)
  | fuel + 1, m, h => by
    by_cases hm : m < 10
    · have hd := digitChar_spec m hm
      refine ⟨by simp [natDigitsAux, hm], ?_, ?_, ?_⟩
      · intro c hc
        simp only [natDigitsAux, if_pos hm, List.mem_singleton] at hc
        rw [hc]; exact hd.1
      · simp [natDigitsAux, if_pos hm, digitsToNat, hd.2.1]
      · intro hpos
        simp only [natDigitsAux, if_pos hm, List.head?_cons, ne_eq,
          Option.some.injEq]
        exact hd.2.2 hpos
    · have hrec : m / 10 < fuel := by
        have h10 : 10 ≤ m := by omega
        have := Nat.div_lt_self (by omega : 0 < m) (by omega : 1 < 10)
        omega
      obtain ⟨hne, hdig, hval, hhead⟩ := natDigitsAux_spec fuel (m / 10) hrec
      have hd := digitChar_spec (m % 10) (Nat.mod_lt m (by omega))
      refine ⟨by simp [natDigitsAux, if_neg hm], ?_, ?_, ?_⟩
      · intro c hc
        simp only [natDigitsAux, if_neg hm, List.mem_append,
          List.mem_singleton] at hc
        rcases hc with hc | hc
        · exact hdig c hc
        · rw [hc]; exact hd.1
      · simp only [natDigitsAux, if_neg hm, digitsToNat, List.foldl_append]
        have hfold : List.foldl (fun acc c => acc * 10 + (c.toNat - 48)) 0
            (natDigitsAux fuel (m / 10)) = m / 10 := hval
        simp only [hfold, List.foldl_cons, List.foldl_nil, hd.2.1]
        omega
      · intro _
        cases hx : natDigitsAux fuel (m / 10) with
        | nil => exact absurd hx hne
        | cons a t =>
          simp only [natDigitsAux, if_neg hm, hx, List.cons_append,
            List.head?_cons, ne_eq, Option.some.injEq]
          have := hhead (by omega)
          rw [hx] at this
          simpa using this

theorem natDigits_spec (m : Nat) :
    natDigits m ≠ [] ∧ (∀ c ∈ natDigits m, c.isDigit = true) ∧
    digitsToNat (natDigits m) = m ∧
    (0 < m → (natDigits m).head? ≠ some '0') :=
  natDigitsAux_spec (m + 1) m (by omega)

theorem takeWhile_append_all (p : Char → Bool) :
    ∀ (a rest : List Char), (∀ x ∈ a, p x = true) →
      (∀ c t, rest = c :: t → p c = false) →
      (a ++ rest).takeWhile p = a ∧ (a ++ rest).dropWhile p = rest
  | [], rest, _, hb => by
    cases rest with
    | nil => simp
    | cons c t =>
      simp [List.takeWhile_cons, List.dropWhile_cons, hb c t rfl]
  | x :: a, rest, ha, hb => by
    have hx := ha x (by simp)
    have ih := takeWhile_append_all p a rest (fun y hy => ha y (by simp [hy])) hb
    simp [List.takeWhile_cons, List.dropWhile_cons, hx, ih.1, ih.2]

theorem parseNatToken_print (m : Nat) (rest : List Char)
    (hdf : digitFreeHead rest = true) :
    parseNatToken (natDigits m ++ rest) = some (m, rest) := by
  obtain ⟨hne, hdig, hval, hhead⟩ := natDigits_spec m
  have hrest : ∀ c t, rest = c :: t → c.isDigit = false := by
    intro c t hct
    rw [hct] at hdf
    simpa [digitFreeHead] using hdf
  cases hx : natDigits m with
  | nil => exact absurd hx hne
  | cons c t =>
    have hsplit := takeWhile_append_all Char.isDigit (c :: t) rest
      (fun y hy => by rw [← hx] at hy; exact hdig y hy) hrest
    by_cases hm : m = 0
    · have h0 : natDigits 0 = ['0'] := rfl
      rw [hm] at hx
      rw [h0] at hx
      cases hx
      subst hm
      simp [parseNatToken]
    · have hc0 : c ≠ '0' := by
        have := hhead (by omega)
        rw [hx] at this
        simpa using this
      have hcd : c.isDigit = true := hdig c (by rw [hx]; simp)
      rw [List.cons_append, parseNatToken]
      rw [if_neg hc0, if_pos hcd]
      rw [← List.cons_append, hsplit.1, hsplit.2, ← hx, hval]

theorem parseNumberToken_print (n : Int) (rest : List Char)
    (hdf : digitFreeHead rest = true) :
    parseNumberToken (printInt n ++ rest) = some (n, rest) := by
  by_cases hn : n < 0
  · rw [printInt, if_pos hn, List.cons_append, parseNumberToken,
      if_pos rfl, parseNatToken_print n.natAbs rest hdf]
    simp only [Option.map_some']
    congr 1
    have : ((n.natAbs : Int)) = -n := by omega
    rw [this]
    simp
  · rw [printInt, if_neg hn]
    obtain ⟨hne, hdig, _, _⟩ := natDigits_spec n.natAbs
    cases hx : natDigits n.natAbs with
    | nil => exact absurd hx hne
    | cons c t =>
      have hcd : c.isDigit = true := hdig c (by rw [hx]; simp)
      have hcm : c ≠ '-' := (isDigit_char_facts c hcd).2.2.2.2
      have hpn : parseNatToken (c :: (t ++ rest)) = some (n.natAbs, rest) := by
        rw [← List.cons_append, ← hx]
        exact parseNatToken_print n.natAbs rest hdf
      rw [List.cons_append, parseNumberToken, if_neg hcm, hpn]
      simp only [Option.map_some']
      congr 2
      omega

/-! ## Round-trip lemmas: whitespace and strings -/

theorem skipWs_drop_ws : ∀ (w r : List Char),
    (∀ c ∈ w, isJsonWs c = true) → skipWs (w ++ r) = skipWs r
  | [], _, _ => rfl
  | c :: w, r, h => by
    have hc := h c (by simp)
    simp only [List.cons_append, skipWs, hc, if_true]
    exact skipWs_drop_ws w r (fun d hd => h d (by simp [hd]))

theorem skipWs_nonws (c : Char) (r : List Char) (h : isJsonWs c = false) :
    skipWs (c :: r) = c :: r := by
  simp [skipWs, h]

theorem parseValue_drop_ws (fuel : Nat) (w s : List Char)
    (h : ∀ c ∈ w, isJsonWs c = true) :
    parseValue fuel (w ++ s) = parseValue fuel s := by
  cases fuel with
  | zero => rfl
  | succ f => simp only [parseValue, skipWs_drop_ws w s h]

theorem indentChars_ws (d : Nat) : ∀ c ∈ indentChars d, isJsonWs c = true := by
  intro c hc
  rw [indentChars] at hc
  rw [List.eq_of_mem_replicate hc]
  rfl

theorem hexVal_hexDigitChar : ∀ d < 16, hexVal (hexDigitChar d) = some d := by
  decide

theorem charOfNatAux_toNat (c : Char) (h : c.toNat.isValidChar) :
    Char.ofNatAux c.toNat h = c := by
  have h1 : Char.ofNat c.toNat = Char.ofNatAux c.toNat h := by
    simp [Char.ofNat, h]
  rw [← h1, Char.ofNat_toNat]

theorem escapeString_cons (c : Char) (s : List Char) :
    escapeString (c :: s) = escapeChar c ++ escapeString s := by
  rw [escapeString.eq_def]

theorem parseStringRest_escape : ∀ (s r : List Char),
    parseStringRest (escapeString s ++ '"' :: r) = some (s, r)
  | [], r => by
    rw [show escapeString [] = [] from by rw [escapeString.eq_def],
      List.nil_append, parseStringRest.eq_def]
    simp
  | c :: s, r => by
    have ih := parseStringRest_escape s r
    rw [escapeString_cons]
    by_cases hb1 : c = '"'
    · subst hb1
      rw [show escapeChar '"' = ['\\', '"'] from by decide]
      rw [show (['\\', '"'] ++ escapeString s) ++ '"' :: r =
        '\\' :: '"' :: (escapeString s ++ '"' :: r) from by simp]
      rw [parseStringRest.eq_def]
      try simp only []
      rw [if_neg (by decide), if_pos trivial]
      try simp only []
      rw [show unescapeChar '"' = some '"' from by decide]
      try simp only []
      rw [ih]
      rfl
    · by_cases hb2 : c = '\\'
      · subst hb2
        rw [show escapeChar '\\' = ['\\', '\\'] from by decide]
        rw [show (['\\', '\\'] ++ escapeString s) ++ '"' :: r =
          '\\' :: '\\' :: (escapeString s ++ '"' :: r) from by simp]
        rw [parseStringRest.eq_def]
        try simp only []
        rw [if_neg (by decide), if_pos trivial]
        try simp only []
        rw [show unescapeChar '\\' = some '\\' from by decide]
        try simp only []
        rw [ih]
        rfl
      · by_cases hb3 : c = '\x08'
        · subst hb3
          rw [show escapeChar '\x08' = ['\\', 'b'] from by decide]
          rw [show (['\\', 'b'] ++ escapeString s) ++ '"' :: r =
            '\\' :: 'b' :: (escapeString s ++ '"' :: r) from by simp]
          rw [parseStringRest.eq_def]
          try simp only []
          rw [if_neg (by decide), if_pos trivial]
          try simp only []
          rw [show unescapeChar 'b' = some '\x08' from by decide]
          try simp only []
          rw [ih]
          rfl
        · by_cases hb4 : c = '\t'
          · subst hb4
            rw [show escapeChar '\t' = ['\\', 't'] from by decide]
            rw [show (['\\', 't'] ++ escapeString s) ++ '"' :: r =
              '\\' :: 't' :: (escapeString s ++ '"' :: r) from by simp]
            rw [parseStringRest.eq_def]
            try simp only []
            rw [if_neg (by decide), if_pos trivial]
            try simp only []
            rw [show unescapeChar 't' = some '\t' from by decide]
            try simp only []
            rw [ih]
            rfl
          · by_cases hb5 : c = '\n'
            · subst hb5
              rw [show escapeChar '\n' = ['\\', 'n'] from by decide]
              rw [show (['\\', 'n'] ++ escapeString s) ++ '"' :: r =
                '\\' :: 'n' :: (escapeString s ++ '"' :: r) from by simp]
              rw [parseStringRest.eq_def]
              try simp only []
              rw [if_neg (by decide), if_pos trivial]
              try simp only []
              rw [show unescapeChar 'n' = some '\n' from by decide]
              try simp only []
              rw [ih]
              rfl
            · by_cases hb6 : c = '\x0c'
              · subst hb6
                rw [show escapeChar '\x0c' = ['\\', 'f'] from by decide]
                rw [show (['\\', 'f'] ++ escapeString s) ++ '"' :: r =
                  '\\' :: 'f' :: (escapeString s ++ '"' :: r) from by simp]
                rw [parseStringRest.eq_def]
                try simp only []
                rw [if_neg (by decide), if_pos trivial]
                try simp only []
                rw [show unescapeChar 'f' = some '\x0c' from by decide]
                try simp only []
                rw [ih]
                rfl
              · by_cases hb7 : c = '\r'
                · subst hb7
                  rw [show escapeChar '\r' = ['\\', 'r'] from by decide]
                  rw [show (['\\', 'r'] ++ escapeString s) ++ '"' :: r =
                    '\\' :: 'r' :: (escapeString s ++ '"' :: r) from by simp]
                  rw [parseStringRest.eq_def]
                  try simp only []
                  rw [if_neg (by decide), if_pos trivial]
                  try simp only []
                  rw [show unescapeChar 'r' = some '\r' from by decide]
                  try simp only []
                  rw [ih]
                  rfl
                · by_cases hb8 : c.toNat < 0x20
                  · have hch : escapeChar c = ['\\', 'u', '0', '0',
                        hexDigitChar (c.toNat / 16), hexDigitChar (c.toNat % 16)] := by
                      simp only [escapeChar]
                      rw [if_neg hb1, if_neg hb2, if_neg hb3, if_neg hb4,
                        if_neg hb5, if_neg hb6, if_neg hb7, if_pos hb8]
                    rw [hch]
                    rw [show (['\\', 'u', '0', '0', hexDigitChar (c.toNat / 16),
                        hexDigitChar (c.toNat % 16)] ++ escapeString s) ++ '"' :: r =
                      '\\' :: 'u' :: '0' :: '0' :: hexDigitChar (c.toNat / 16) ::
                        hexDigitChar (c.toNat % 16) ::
                        (escapeString s ++ '"' :: r) from by simp]
                    rw [parseStringRest.eq_def]
                    try simp only []
                    rw [if_neg (by decide), if_pos trivial]
                    try simp only []
                    rw [show hexVal '0' = some 0 from by decide,
                      hexVal_hexDigitChar (c.toNat / 16) (by omega),
                      hexVal_hexDigitChar (c.toNat % 16) (by omega)]
                    try simp only []
                    rw [show ((0 * 16 + 0) * 16 + c.toNat / 16) * 16 +
                        c.toNat % 16 = c.toNat from by omega]
                    rw [dif_pos (Or.inl (by omega : c.toNat < 55296))]
                    rw [ih, charOfNatAux_toNat c (Or.inl (by omega))]
                    rfl
                  · have hch : escapeChar c = [c] := by
                      simp only [escapeChar]
                      rw [if_neg hb1, if_neg hb2, if_neg hb3, if_neg hb4,
                        if_neg hb5, if_neg hb6, if_neg hb7, if_neg hb8]
                    rw [hch, show ([c] ++ escapeString s) ++ '"' :: r =
                      c :: (escapeString s ++ '"' :: r) from by simp]
                    rw [parseStringRest.eq_def]
                    try simp only []
                    rw [if_neg hb1, if_neg hb2, if_neg hb8, ih]
                    rfl

/-! ## Round-trip lemmas: parseValue dispatch -/

theorem sizeJ_pos : ∀ v : JValue, 1 ≤ sizeJ v
  | .null => by simp [sizeJ]
  | .bool _ => by simp [sizeJ]
  | .num _ => by simp [sizeJ]
  | .str _ => by simp [sizeJ]
  | .arr xs => by rw [sizeJ]; omega
  | .obj fs => by rw [sizeJ]; omega

theorem sizeList_pos : ∀ l : List JValue, 1 ≤ sizeList l
  | [] => by simp [sizeList]
  | x :: xs => by rw [sizeList]; omega

theorem sizeFields_pos : ∀ l : List (List Char × JValue), 1 ≤ sizeFields l
  | [] => by simp [sizeFields]
  | (k, v) :: fs => by rw [sizeFields]; omega

theorem parseValue_null (f : Nat) (rest : List Char) :
    parseValue (f + 1) ('n' :: 'u' :: 'l' :: 'l' :: rest) =
      some (.null, rest) := rfl

theorem parseValue_true (f : Nat) (rest : List Char) :
    parseValue (f + 1) ('t' :: 'r' :: 'u' :: 'e' :: rest) =
      some (.bool true, rest) := rfl

theorem parseValue_false (f : Nat) (rest : List Char) :
    parseValue (f + 1) ('f' :: 'a' :: 'l' :: 's' :: 'e' :: rest) =
      some (.bool false, rest) := rfl

theorem parseValue_string (f : Nat) (rest : List Char) :
    parseValue (f + 1) ('"' :: rest) =
      (parseStringRest rest).map (fun r => (JValue.str r.1, r.2)) := rfl

theorem parseValue_arr (f : Nat) (rest : List Char) :
    parseValue (f + 1) ('[' :: rest) =
      (if (skipWs rest).head? = some ']' then some (.arr [], (skipWs rest).tail)
       else parseElems f (skipWs rest) []) := rfl

theorem parseValue_obj (f : Nat) (rest : List Char) :
    parseValue (f + 1) ('\x7b' :: rest) =
      (if (skipWs rest).head? = some '\x7d' then
        some (.obj [], (skipWs rest).tail)
       else parseMembers f (skipWs rest) []) := rfl

theorem parseValue_dash (f : Nat) (t : List Char) :
    parseValue (f + 1) ('-' :: t) =
      (parseNumberToken ('-' :: t)).map (fun r => (JValue.num r.1, r.2)) := rfl

theorem isDigit_not_keyword (c : Char) (h : c.isDigit = true) :
    c ≠ 'n' ∧ c ≠ 't' ∧ c ≠ 'f' ∧ c ≠ '"' ∧ c ≠ '[' ∧ c ≠ '\x7b' := by
  refine ⟨?_, ?_, ?_, ?_, ?_, ?_⟩ <;>
    · intro hc; rw [hc] at h; exact absurd h (by decide)

theorem parseValue_digit_start (f : Nat) (c : Char) (t : List Char)
    (hd : c.isDigit = true) :
    parseValue (f + 1) (c :: t) =
      (parseNumberToken (c :: t)).map (fun r => (JValue.num r.1, r.2)) := by
  obtain ⟨hn, ht, hf, hq, hbr, hbc⟩ := isDigit_not_keyword c hd
  have hws : isJsonWs c = false := (isDigit_char_facts c hd).1
  rw [parseValue.eq_def]
  simp only []
  rw [skipWs_nonws c t hws]
  split
  · next heq => rw [List.cons.injEq] at heq; exact absurd heq.1 hn
  · next heq => rw [List.cons.injEq] at heq; exact absurd heq.1 ht
  · next heq => rw [List.cons.injEq] at heq; exact absurd heq.1 hf
  · next heq => rw [List.cons.injEq] at heq; exact absurd heq.1 hq
  · next heq => rw [List.cons.injEq] at heq; exact absurd heq.1 hbr
  · next heq => rw [List.cons.injEq] at heq; exact absurd heq.1 hbc
  · next c2 t2 heq =>
    rw [List.cons.injEq] at heq
    rw [← heq.1, ← heq.2, if_pos (Or.inr hd)]
  · next heq => cases heq

theorem skipWs_idem : ∀ s : List Char, skipWs (skipWs s) = skipWs s
  | [] => rfl
  | c :: t => by
    by_cases h : isJsonWs c = true
    · rw [skipWs, if_pos h]
      exact skipWs_idem t
    · rw [skipWs, if_neg h, skipWs, if_neg h]

theorem parseValue_skipWs (fuel : Nat) (s : List Char) :
    parseValue fuel (skipWs s) = parseValue fuel s := by
  cases fuel with
  | zero => rfl
  | succ f => simp only [parseValue, skipWs_idem]

theorem parseElems_skipWs (fuel : Nat) (s : List Char) (acc : List JValue) :
    parseElems fuel (skipWs s) acc = parseElems fuel s acc := by
  cases fuel with
  | zero => rfl
  | succ f => simp only [parseElems, parseValue_skipWs]

theorem sizeJ_mem_list : ∀ (l : List JValue), ∀ u ∈ l, sizeJ u < sizeList l
  | x :: xs, u, h => by
    rw [sizeList]
    rcases List.mem_cons.mp h with rfl | h2
    · have := sizeList_pos xs; omega
    · have := sizeJ_mem_list xs u h2; have := sizeJ_pos x; omega

theorem sizeJ_mem_fields : ∀ (l : List (List Char × JValue)),
    ∀ kv ∈ l, sizeJ kv.2 < sizeFields l
  | (k, v) :: fs, kv, h => by
    rw [sizeFields]
    rcases List.mem_cons.mp h with rfl | h2
    · have h3 : sizeJ ((k, v) : List Char × JValue).2 = sizeJ v := rfl
      have := sizeFields_pos fs; omega
    · have := sizeJ_mem_fields fs kv h2; have := sizeJ_pos v; omega

theorem stringifyVal_head (d : Nat) (v : JValue) :
    ∃ c t, stringifyVal d v = c :: t ∧ isJsonWs c = false ∧
      c ≠ ']' ∧ c ≠ '\x7d' := by
  cases v with
  | null =>
    refine ⟨'n', "ull".data, ?_, by decide, by decide, by decide⟩
    rw [stringifyVal]
  | bool b =>
    cases b with
    | true =>
      refine ⟨'t', "rue".data, ?_, by decide, by decide, by decide⟩
      rw [stringifyVal]
    | false =>
      refine ⟨'f', "alse".data, ?_, by decide, by decide, by decide⟩
      rw [stringifyVal]
  | num n =>
    by_cases hn : n < 0
    · refine ⟨'-', natDigits n.natAbs, ?_, by decide, by decide, by decide⟩
      rw [stringifyVal, printInt, if_pos hn]
    · obtain ⟨hne, hdig, _, _⟩ := natDigits_spec n.natAbs
      cases hx : natDigits n.natAbs with
      | nil => exact absurd hx hne
      | cons c t =>
        have hcd : c.isDigit = true := hdig c (by rw [hx]; simp)
        obtain ⟨h1, h2, h3, _, _⟩ := isDigit_char_facts c hcd
        refine ⟨c, t, ?_, h1, h2, h3⟩
        rw [stringifyVal, printInt, if_neg hn, hx]
  | str s =>
    refine ⟨'"', escapeString s ++ ['"'], ?_, by decide, by decide, by decide⟩
    rw [stringifyVal]
  | arr xs =>
    cases xs with
    | nil =>
      refine ⟨'[', "]".data, ?_, by decide, by decide, by decide⟩
      rw [stringifyVal]
    | cons x xs =>
      refine ⟨'[', '\n' :: (stringifyElems (d + 1) x xs ++
        '\n' :: (indentChars d ++ "]".data)), ?_, by decide, by decide, by decide⟩
      rw [stringifyVal]
      simp
  | obj fs =>
    cases fs with
    | nil =>
      refine ⟨'\x7b', "\x7d".data, ?_, by decide, by decide, by decide⟩
      rw [stringifyVal]
    | cons f fs =>
      refine ⟨'\x7b', '\n' :: (stringifyFields (d + 1) f fs ++
        '\n' :: (indentChars d ++ "\x7d".data)), ?_, by decide, by decide, by decide⟩
      rw [stringifyVal]
      simp

theorem stringifyElems_skipWs (d : Nat) (x : JValue) (xs : List JValue)
    (close : List Char) :
    ∃ c t, skipWs (stringifyElems d x xs ++ close) = c :: t ∧
      isJsonWs c = false ∧ c ≠ ']' ∧ c ≠ '\x7d' := by
  obtain ⟨c, t, hsv, hws, h1, h2⟩ := stringifyVal_head d x
  cases xs with
  | nil =>
    refine ⟨c, t ++ close, ?_, hws, h1, h2⟩
    rw [stringifyElems, List.append_assoc, hsv, List.cons_append,
      skipWs_drop_ws _ _ (indentChars_ws d), skipWs_nonws _ _ hws]
  | cons y ys =>
    refine ⟨c, t ++ (",\n".data ++ (stringifyElems d y ys ++ close)), ?_, hws, h1, h2⟩
    rw [stringifyElems]
    rw [show indentChars d ++ stringifyVal d x ++ ",\n".data ++
        stringifyElems d y ys ++ close =
      indentChars d ++ (stringifyVal d x ++
        (",\n".data ++ (stringifyElems d y ys ++ close))) from by
      simp [List.append_assoc]]
    rw [hsv, List.cons_append, skipWs_drop_ws _ _ (indentChars_ws d),
      skipWs_nonws _ _ hws]

theorem stringifyFields_skipWs (d : Nat) (k : List Char) (v : JValue)
    (fs : List (List Char × JValue)) (close : List Char) :
    ∃ t, skipWs (stringifyFields d (k, v) fs ++ close) = '"' :: t := by
  cases fs with
  | nil =>
    refine ⟨escapeString k ++ "\": ".data ++ stringifyVal d v ++ close, ?_⟩
    rw [stringifyFields]
    rw [show indentChars d ++ '"' ::
        (escapeString k ++ "\": ".data ++ stringifyVal d v) ++ close =
      indentChars d ++ '"' ::
        (escapeString k ++ "\": ".data ++ stringifyVal d v ++ close) from by
      simp [List.append_assoc]]
    rw [skipWs_drop_ws _ _ (indentChars_ws d), skipWs_nonws _ _ (by decide)]
  | cons g gs =>
    refine ⟨escapeString k ++ "\": ".data ++ stringifyVal d v ++
      (",\n".data ++ (stringifyFields d g gs ++ close)), ?_⟩
    rw [stringifyFields]
    rw [show indentChars d ++ '"' ::
        (escapeString k ++ "\": ".data ++ stringifyVal d v) ++ ",\n".data ++
        stringifyFields d g gs ++ close =
      indentChars d ++ '"' ::
        (escapeString k ++ "\": ".data ++ stringifyVal d v ++
          (",\n".data ++ (stringifyFields d g gs ++ close))) from by
      simp [List.append_assoc]]
    rw [skipWs_drop_ws _ _ (indentChars_ws d), skipWs_nonws _ _ (by decide)]

theorem parseElems_print :
    ∀ (xs : List JValue) (x : JValue) (acc : List JValue) (fuel d : Nat)
      (w close rest : List Char),
      (∀ u ∈ x :: xs, ∀ g r, sizeJ u ≤ g → digitFreeHead r = true →
        parseValue g (stringifyVal d u ++ r) = some (u, r)) →
      sizeList (x :: xs) ≤ fuel →
      (∀ c ∈ w, isJsonWs c = true) →
      skipWs close = ']' :: rest →
      digitFreeHead close = true →
      parseElems fuel (w ++ (stringifyElems d x xs ++ close)) acc =
        some (.arr (acc ++ x :: xs), rest)
  | [], x, acc, fuel, d, w, close, rest, hIH, hsz, hw, hclose, hdf => by
    rw [sizeList, sizeList] at hsz
    have hx1 := sizeJ_pos x
    obtain ⟨f, rfl⟩ : ∃ f, fuel = f + 1 := by
      cases fuel with
      | zero => omega
      | succ f => exact ⟨f, rfl⟩
    have hv : parseValue f (w ++ (stringifyElems d x [] ++ close)) =
        some (x, close) := by
      rw [stringifyElems, List.append_assoc, parseValue_drop_ws f w _ hw,
        parseValue_drop_ws f _ _ (indentChars_ws d)]
      exact hIH x (by simp) f close (by omega) hdf
    rw [parseElems.eq_def]
    simp only []
    rw [hv]
    simp only []
    rw [hclose]
    simp only []
    rw [if_neg (by decide), if_pos trivial]
  | y :: ys, x, acc, fuel, d, w, close, rest, hIH, hsz, hw, hclose, hdf => by
    rw [sizeList] at hsz
    have hx1 := sizeJ_pos x
    have hys := sizeList_pos (y :: ys)
    obtain ⟨f, rfl⟩ : ∃ f, fuel = f + 1 := by
      cases fuel with
      | zero => omega
      | succ f => exact ⟨f, rfl⟩
    have hv : parseValue f (w ++ (stringifyElems d x (y :: ys) ++ close)) =
        some (x, ',' :: '\n' :: (stringifyElems d y ys ++ close)) := by
      rw [show stringifyElems d x (y :: ys) ++ close =
          indentChars d ++ (stringifyVal d x ++
            (',' :: '\n' :: (stringifyElems d y ys ++ close))) from by
        rw [stringifyElems]
        have hc : ((",\n".data : List Char)) = ',' :: '\n' :: [] := rfl
        simp [hc, List.append_assoc]]
      rw [parseValue_drop_ws f w _ hw,
        parseValue_drop_ws f _ _ (indentChars_ws d)]
      exact hIH x (by simp) f _ (by omega) rfl
    rw [parseElems.eq_def]
    simp only []
    rw [hv]
    simp only []
    rw [skipWs_nonws _ _ (by decide)]
    simp only []
    rw [if_pos trivial]
    rw [show ('\n' :: (stringifyElems d y ys ++ close) : List Char) =
      ['\n'] ++ (stringifyElems d y ys ++ close) from rfl]
    rw [parseElems_print ys y (acc ++ [x]) f d ['\n'] close rest
      (fun u hu g r hg hr => hIH u (List.mem_cons_of_mem x hu) g r hg hr)
      (by omega) (by decide) hclose hdf]
    simp [List.append_assoc]

theorem parseMembers_print :
    ∀ (fs : List (List Char × JValue)) (k : List Char) (v : JValue)
      (acc : List (List Char × JValue)) (fuel d : Nat) (close rest : List Char),
      (∀ u ∈ v :: fs.map Prod.snd, ∀ g r, sizeJ u ≤ g → digitFreeHead r = true →
        parseValue g (stringifyVal d u ++ r) = some (u, r)) →
      sizeFields ((k, v) :: fs) ≤ fuel →
      skipWs close = '\x7d' :: rest →
      digitFreeHead close = true →
      parseMembers fuel (skipWs (stringifyFields d (k, v) fs ++ close)) acc =
        some (.obj (acc ++ (k, v) :: fs), rest)
  | [], k, v, acc, fuel, d, close, rest, hIH, hsz, hclose, hdf => by
    rw [sizeFields, sizeFields] at hsz
    have hv1 := sizeJ_pos v
    obtain ⟨f, rfl⟩ : ∃ f, fuel = f + 1 := by
      cases fuel with
      | zero => omega
      | succ f => exact ⟨f, rfl⟩
    have hsk : skipWs (stringifyFields d (k, v) [] ++ close) =
        '"' :: (escapeString k ++
          ('"' :: (':' :: (' ' :: (stringifyVal d v ++ close))))) := by
      rw [stringifyFields]
      rw [show indentChars d ++ '"' ::
          (escapeString k ++ "\": ".data ++ stringifyVal d v) ++ close =
        indentChars d ++ '"' :: (escapeString k ++
          ('"' :: (':' :: (' ' :: (stringifyVal d v ++ close))))) from by
        have hq : (("\": ".data : List Char)) = '"' :: ':' :: ' ' :: [] := rfl
        simp [hq, List.append_assoc]]
      rw [skipWs_drop_ws _ _ (indentChars_ws d), skipWs_nonws _ _ (by decide)]
    rw [hsk, parseMembers.eq_def]
    simp only []
    rw [if_pos trivial, parseStringRest_escape]
    simp only []
    rw [skipWs_nonws _ _ (by decide)]
    simp only []
    rw [if_pos trivial]
    rw [show (' ' :: (stringifyVal d v ++ close) : List Char) =
      [' '] ++ (stringifyVal d v ++ close) from rfl,
      parseValue_drop_ws f [' '] _ (by decide)]
    rw [hIH v (by simp) f close (by omega) hdf]
    simp only []
    rw [hclose]
    simp only []
    rw [if_neg (by decide), if_pos trivial]
  | (k2, v2) :: gs, k, v, acc, fuel, d, close, rest, hIH, hsz, hclose, hdf => by
    rw [sizeFields] at hsz
    have hv1 := sizeJ_pos v
    have hgs := sizeFields_pos ((k2, v2) :: gs)
    obtain ⟨f, rfl⟩ : ∃ f, fuel = f + 1 := by
      cases fuel with
      | zero => omega
      | succ f => exact ⟨f, rfl⟩
    have hsk : skipWs (stringifyFields d (k, v) ((k2, v2) :: gs) ++ close) =
        '"' :: (escapeString k ++
          ('"' :: (':' :: (' ' :: (stringifyVal d v ++
            (',' :: '\n' :: (stringifyFields d (k2, v2) gs ++ close))))))) := by
      rw [stringifyFields]
      rw [show indentChars d ++ '"' ::
          (escapeString k ++ "\": ".data ++ stringifyVal d v) ++ ",\n".data ++
          stringifyFields d (k2, v2) gs ++ close =
        indentChars d ++ '"' :: (escapeString k ++
          ('"' :: (':' :: (' ' :: (stringifyVal d v ++
            (',' :: '\n' :: (stringifyFields d (k2, v2) gs ++ close))))))) from by
        have hq : (("\": ".data : List Char)) = '"' :: ':' :: ' ' :: [] := rfl
        have hc : ((",\n".data : List Char)) = ',' :: '\n' :: [] := rfl
        simp [hq, hc, List.append_assoc]]
      rw [skipWs_drop_ws _ _ (indentChars_ws d), skipWs_nonws _ _ (by decide)]
    rw [hsk, parseMembers.eq_def]
    simp only []
    rw [if_pos trivial, parseStringRest_escape]
    simp only []
    rw [skipWs_nonws _ _ (by decide)]
    simp only []
    rw [if_pos trivial]
    rw [show (' ' :: (stringifyVal d v ++
        (',' :: '\n' :: (stringifyFields d (k2, v2) gs ++ close))) : List Char) =
      [' '] ++ (stringifyVal d v ++
        (',' :: '\n' :: (stringifyFields d (k2, v2) gs ++ close))) from rfl,
      parseValue_drop_ws f [' '] (stringifyVal d v ++
        (',' :: '\n' :: (stringifyFields d (k2, v2) gs ++ close))) (by decide)]
    rw [hIH v (by simp) f
      (',' :: '\n' :: (stringifyFields d (k2, v2) gs ++ close)) (by omega) rfl]
    simp only []
    rw [skipWs_nonws _ _ (by decide)]
    simp only []
    rw [if_pos trivial]
    rw [show ('\n' :: (stringifyFields d (k2, v2) gs ++ close) : List Char) =
      ['\n'] ++ (stringifyFields d (k2, v2) gs ++ close) from rfl,
      skipWs_drop_ws _ _ (by decide)]
    rw [parseMembers_print gs k2 v2 (acc ++ [(k, v)]) f d close rest
      (by
        intro u hu g r hg hr
        refine hIH u ?_ g r hg hr
        simp only [List.map_cons]
        exact List.mem_cons_of_mem v hu)
      (by omega) hclose hdf]
    simp [List.append_assoc]

theorem parseValue_print : ∀ (N : Nat) (v : JValue), sizeJ v ≤ N →
    ∀ (f d : Nat) (r : List Char), sizeJ v ≤ f → digitFreeHead r = true →
    parseValue f (stringifyVal d v ++ r) = some (v, r) := by
  intro N
  induction N with
  | zero =>
    intro v hv
    exact absurd hv (by have := sizeJ_pos v; omega)
  | succ N ih =>
    intro v hv f d r hf hdf
    have hf1 : 1 ≤ f := le_trans (sizeJ_pos v) hf
    obtain ⟨g, rfl⟩ : ∃ g, f = g + 1 := by
      cases f with
      | zero => omega
      | succ g => exact ⟨g, rfl⟩
    cases v with
    | null =>
      rw [show stringifyVal d JValue.null ++ r =
        'n' :: 'u' :: 'l' :: 'l' :: r from by
        rw [stringifyVal]
        have h1 : (("null".data : List Char)) = 'n' :: 'u' :: 'l' :: 'l' :: [] := rfl
        simp [h1]]
      exact parseValue_null g r
    | bool b =>
      cases b with
      | true =>
        rw [show stringifyVal d (JValue.bool true) ++ r =
          't' :: 'r' :: 'u' :: 'e' :: r from by
          rw [stringifyVal]
          have h1 : (("true".data : List Char)) = 't' :: 'r' :: 'u' :: 'e' :: [] := rfl
          simp [h1]]
        exact parseValue_true g r
      | false =>
        rw [show stringifyVal d (JValue.bool false) ++ r =
          'f' :: 'a' :: 'l' :: 's' :: 'e' :: r from by
          rw [stringifyVal]
          have h1 : (("false".data : List Char)) =
            'f' :: 'a' :: 'l' :: 's' :: 'e' :: [] := rfl
          simp [h1]]
        exact parseValue_false g r
    | num n =>
      rw [show stringifyVal d (JValue.num n) = printInt n from by rw [stringifyVal]]
      by_cases hn : n < 0
      · rw [show printInt n ++ r = '-' :: (natDigits n.natAbs ++ r) from by
          rw [printInt, if_pos hn, List.cons_append]]
        rw [parseValue_dash g _]
        rw [show '-' :: (natDigits n.natAbs ++ r) = printInt n ++ r from by
          rw [printInt, if_pos hn, List.cons_append]]
        rw [parseNumberToken_print n r hdf]
        rfl
      · obtain ⟨hne, hdig, _, _⟩ := natDigits_spec n.natAbs
        cases hx : natDigits n.natAbs with
        | nil => exact absurd hx hne
        | cons c t =>
          have hcd : c.isDigit = true := hdig c (by rw [hx]; simp)
          rw [show printInt n ++ r = c :: (t ++ r) from by
            rw [printInt, if_neg hn, hx, List.cons_append]]
          rw [parseValue_digit_start g c (t ++ r) hcd]
          rw [show c :: (t ++ r) = printInt n ++ r from by
            rw [printInt, if_neg hn, hx, List.cons_append]]
          rw [parseNumberToken_print n r hdf]
          rfl
    | str s =>
      rw [show stringifyVal d (JValue.str s) ++ r =
        '"' :: (escapeString s ++ '"' :: r) from by
        rw [stringifyVal]
        simp]
      rw [parseValue_string g _, parseStringRest_escape s r]
      rfl
    | arr xs =>
      cases xs with
      | nil =>
        rw [show stringifyVal d (JValue.arr []) ++ r = '[' :: (']' :: r) from by
          rw [stringifyVal]
          have h1 : (("[]".data : List Char)) = '[' :: ']' :: [] := rfl
          simp [h1]]
        rw [parseValue_arr g _, skipWs_nonws _ _ (by decide)]
        simp
      | cons x xs =>
        rw [sizeJ] at hv hf
        have hIH : ∀ u ∈ x :: xs, ∀ g2 r2, sizeJ u ≤ g2 →
            digitFreeHead r2 = true →
            parseValue g2 (stringifyVal (d + 1) u ++ r2) = some (u, r2) := by
          intro u hu g2 r2 hg2 hr2
          have hu2 : sizeJ u ≤ N := by
            have := sizeJ_mem_list (x :: xs) u hu
            omega
          exact ih u hu2 g2 (d + 1) r2 hg2 hr2
        rw [show stringifyVal d (JValue.arr (x :: xs)) ++ r =
          '[' :: ('\n' :: (stringifyElems (d + 1) x xs ++
            ('\n' :: (indentChars d ++ (']' :: r))))) from by
          rw [stringifyVal]
          have h1 : (("[\n".data : List Char)) = '[' :: '\n' :: [] := rfl
          have h2 : (("]".data : List Char)) = ']' :: [] := rfl
          simp [h1, h2, List.append_assoc]]
        rw [parseValue_arr g _]
        have hclose : skipWs ('\n' :: (indentChars d ++ (']' :: r))) =
            ']' :: r := by
          rw [show ('\n' :: (indentChars d ++ (']' :: r)) : List Char) =
            ('\n' :: indentChars d) ++ (']' :: r) from by simp]
          rw [skipWs_drop_ws _ _ ?hws, skipWs_nonws _ _ (by decide)]
          case hws =>
            intro c hc
            rcases List.mem_cons.mp hc with rfl | hc2
            · rfl
            · exact indentChars_ws d c hc2
        obtain ⟨c0, t0, hsk0, hws0, hne1, hne2⟩ :=
          stringifyElems_skipWs (d + 1) x xs
            ('\n' :: (indentChars d ++ (']' :: r)))
        have hdrop : skipWs ('\n' :: (stringifyElems (d + 1) x xs ++
            ('\n' :: (indentChars d ++ (']' :: r))))) =
          skipWs (stringifyElems (d + 1) x xs ++
            ('\n' :: (indentChars d ++ (']' :: r)))) := by
          rw [show ('\n' :: (stringifyElems (d + 1) x xs ++
              ('\n' :: (indentChars d ++ (']' :: r)))) : List Char) =
            ['\n'] ++ (stringifyElems (d + 1) x xs ++
              ('\n' :: (indentChars d ++ (']' :: r)))) from rfl]
          rw [skipWs_drop_ws _ _ (by decide)]
        rw [if_neg (by rw [hdrop, hsk0]; simp [hne1])]
        rw [hdrop, parseElems_skipWs]
        have hres := parseElems_print xs x [] g (d + 1) []
          ('\n' :: (indentChars d ++ (']' :: r))) r hIH (by omega)
          (by intro c hc; cases hc) hclose rfl
        rw [List.nil_append] at hres
        rw [hres]
        simp
    | obj fs =>
      cases fs with
      | nil =>
        rw [show stringifyVal d (JValue.obj []) ++ r =
          '\x7b' :: ('\x7d' :: r) from by
          rw [stringifyVal]
          have h1 : (("\x7b\x7d".data : List Char)) = '\x7b' :: '\x7d' :: [] := rfl
          simp [h1]]
        rw [parseValue_obj g _, skipWs_nonws _ _ (by decide)]
        simp
      | cons f0 fs =>
        obtain ⟨k0, v0⟩ := f0
        rw [sizeJ] at hv hf
        have hIH : ∀ u ∈ v0 :: fs.map Prod.snd, ∀ g2 r2, sizeJ u ≤ g2 →
            digitFreeHead r2 = true →
            parseValue g2 (stringifyVal (d + 1) u ++ r2) = some (u, r2) := by
          intro u hu g2 r2 hg2 hr2
          have hu2 : sizeJ u ≤ N := by
            rcases List.mem_cons.mp hu with rfl | hu3
            · have h5 := sizeJ_mem_fields ((k0, u) :: fs) (k0, u) (by simp)
              have h6 : sizeJ ((k0, u) : List Char × JValue).2 = sizeJ u := rfl
              omega
            · obtain ⟨a, ha, rfl⟩ := List.mem_map.mp hu3
              have h5 := sizeJ_mem_fields ((k0, v0) :: fs) a
                (List.mem_cons_of_mem _ ha)
              omega
          exact ih u hu2 g2 (d + 1) r2 hg2 hr2
        rw [show stringifyVal d (JValue.obj ((k0, v0) :: fs)) ++ r =
          '\x7b' :: ('\n' :: (stringifyFields (d + 1) (k0, v0) fs ++
            ('\n' :: (indentChars d ++ ('\x7d' :: r))))) from by
          rw [stringifyVal]
          have h1 : (("\x7b\n".data : List Char)) = '\x7b' :: '\n' :: [] := rfl
          have h2 : (("\x7d".data : List Char)) = '\x7d' :: [] := rfl
          simp [h1, h2, List.append_assoc]]
        rw [parseValue_obj g _]
        have hclose : skipWs ('\n' :: (indentChars d ++ ('\x7d' :: r))) =
            '\x7d' :: r := by
          rw [show ('\n' :: (indentChars d ++ ('\x7d' :: r)) : List Char) =
            ('\n' :: indentChars d) ++ ('\x7d' :: r) from by simp]
          rw [skipWs_drop_ws _ _ ?hws2, skipWs_nonws _ _ (by decide)]
          case hws2 =>
            intro c hc
            rcases List.mem_cons.mp hc with rfl | hc2
            · rfl
            · exact indentChars_ws d c hc2
        obtain ⟨t0, hsk0⟩ := stringifyFields_skipWs (d + 1) k0 v0 fs
          ('\n' :: (indentChars d ++ ('\x7d' :: r)))
        have hdrop : skipWs ('\n' :: (stringifyFields (d + 1) (k0, v0) fs ++
            ('\n' :: (indentChars d ++ ('\x7d' :: r))))) =
          skipWs (stringifyFields (d + 1) (k0, v0) fs ++
            ('\n' :: (indentChars d ++ ('\x7d' :: r)))) := by
          rw [show ('\n' :: (stringifyFields (d + 1) (k0, v0) fs ++
              ('\n' :: (indentChars d ++ ('\x7d' :: r)))) : List Char) =
            ['\n'] ++ (stringifyFields (d + 1) (k0, v0) fs ++
              ('\n' :: (indentChars d ++ ('\x7d' :: r)))) from rfl]
          rw [skipWs_drop_ws _ _ (by decide)]
        rw [if_neg (by rw [hdrop, hsk0]; simp)]
        rw [hdrop]
        rw [parseMembers_print fs k0 v0 [] g (d + 1)
          ('\n' :: (indentChars d ++ ('\x7d' :: r))) r hIH (by omega)
          hclose rfl]
        simp

theorem stringifyElems_length :
    ∀ (xs : List JValue) (x : JValue) (d : Nat),
      (∀ u ∈ x :: xs, ∀ d2 : Nat, sizeJ u ≤ (stringifyVal d2 u).length) →
      sizeList (x :: xs) ≤ (stringifyElems d x xs).length + 2
  | [], x, d, hIH => by
    rw [stringifyElems, sizeList, sizeList]
    have h1 := hIH x (by simp) d
    simp only [List.length_append, List.length_cons, List.length_nil]
    omega
  | y :: ys, x, d, hIH => by
    rw [stringifyElems, sizeList]
    have h1 := hIH x (by simp) d
    have h2 := stringifyElems_length ys y d
      (fun u hu => hIH u (List.mem_cons_of_mem x hu))
    simp only [List.length_append, List.length_cons, List.length_nil]
    omega

theorem stringifyFields_length :
    ∀ (fs : List (List Char × JValue)) (k : List Char) (v : JValue) (d : Nat),
      (∀ u ∈ v :: fs.map Prod.snd, ∀ d2 : Nat,
        sizeJ u ≤ (stringifyVal d2 u).length) →
      sizeFields ((k, v) :: fs) ≤ (stringifyFields d (k, v) fs).length + 2
  | [], k, v, d, hIH => by
    rw [stringifyFields, sizeFields, sizeFields]
    have h1 := hIH v (by simp) d
    simp only [List.length_append, List.length_cons, List.length_nil]
    omega
  | (k2, v2) :: gs, k, v, d, hIH => by
    rw [stringifyFields, sizeFields]
    have h1 := hIH v (by simp) d
    have h2 := stringifyFields_length gs k2 v2 d (by
      intro u hu d2
      refine hIH u ?_ d2
      simp only [List.map_cons]
      exact List.mem_cons_of_mem v hu)
    simp only [List.length_append, List.length_cons, List.length_nil]
    omega

theorem sizeJ_le_length : ∀ (N : Nat) (v : JValue), sizeJ v ≤ N →
    ∀ d : Nat, sizeJ v ≤ (stringifyVal d v).length := by
  intro N
  induction N with
  | zero =>
    intro v hv
    exact absurd hv (by have := sizeJ_pos v; omega)
  | succ N ih =>
    intro v hv d
    cases v with
    | null =>
      rw [sizeJ, show stringifyVal d JValue.null = "null".data from by
        rw [stringifyVal]]
      decide
    | bool b =>
      cases b with
      | true =>
        rw [sizeJ, show stringifyVal d (JValue.bool true) = "true".data from by
          rw [stringifyVal]]
        decide
      | false =>
        rw [sizeJ, show stringifyVal d (JValue.bool false) = "false".data from by
          rw [stringifyVal]]
        decide
    | num n =>
      rw [sizeJ, show stringifyVal d (JValue.num n) = printInt n from by
        rw [stringifyVal]]
      by_cases hn : n < 0
      · rw [printInt, if_pos hn]
        simp
      · rw [printInt, if_neg hn]
        obtain ⟨hne, _, _, _⟩ := natDigits_spec n.natAbs
        have := List.length_pos.mpr hne
        omega
    | str s =>
      rw [sizeJ, show stringifyVal d (JValue.str s) =
        '"' :: (escapeString s ++ ['"']) from by rw [stringifyVal]]
      simp
    | arr xs =>
      cases xs with
      | nil =>
        rw [sizeJ, sizeList, show stringifyVal d (JValue.arr []) = "[]".data from by
          rw [stringifyVal]]
        decide
      | cons x xs =>
        rw [sizeJ] at hv ⊢
        have hIH : ∀ u ∈ x :: xs, ∀ d2 : Nat,
            sizeJ u ≤ (stringifyVal d2 u).length := by
          intro u hu d2
          have := sizeJ_mem_list (x :: xs) u hu
          exact ih u (by omega) d2
        have h2 := stringifyElems_length xs x (d + 1) hIH
        rw [show stringifyVal d (JValue.arr (x :: xs)) =
          "[\n".data ++ stringifyElems (d + 1) x xs ++
            '\n' :: (indentChars d ++ "]".data) from by rw [stringifyVal]]
        have hb : (("[\n".data : List Char)).length = 2 := rfl
        simp only [List.length_append, List.length_cons, List.length_nil]
        omega
    | obj fs =>
      cases fs with
      | nil =>
        rw [sizeJ, sizeFields, show stringifyVal d (JValue.obj []) =
          "\x7b\x7d".data from by rw [stringifyVal]]
        decide
      | cons f0 fs =>
        obtain ⟨k0, v0⟩ := f0
        rw [sizeJ] at hv ⊢
        have hIH : ∀ u ∈ v0 :: fs.map Prod.snd, ∀ d2 : Nat,
            sizeJ u ≤ (stringifyVal d2 u).length := by
          intro u hu d2
          rcases List.mem_cons.mp hu with rfl | hu3
          · have h5 := sizeJ_mem_fields ((k0, u) :: fs) (k0, u) (by simp)
            have h6 : sizeJ ((k0, u) : List Char × JValue).2 = sizeJ u := rfl
            exact ih u (by omega) d2
          · obtain ⟨a, ha, rfl⟩ := List.mem_map.mp hu3
            have h5 := sizeJ_mem_fields ((k0, v0) :: fs) a
              (List.mem_cons_of_mem _ ha)
            exact ih a.2 (by omega) d2
        have h2 := stringifyFields_length fs k0 v0 (d + 1) hIH
        rw [show stringifyVal d (JValue.obj ((k0, v0) :: fs)) =
          "\x7b\n".data ++ stringifyFields (d + 1) (k0, v0) fs ++
            '\n' :: (indentChars d ++ "\x7d".data) from by rw [stringifyVal]]
        have hb : (("\x7b\n".data : List Char)).length = 2 := rfl
        simp only [List.length_append, List.length_cons, List.length_nil]
        omega

theorem jsonParse_stringify (v : JValue) :
    jsonParse (stringifyVal 0 v) = some v := by
  have hlen := sizeJ_le_length (sizeJ v) v le_rfl 0
  have h := parseValue_print (sizeJ v) v le_rfl
    ((stringifyVal 0 v).length + 1) 0 [] (by omega) rfl
  rw [List.append_nil] at h
  rw [jsonParse, h]
  simp [skipWs]

/-! ## C6: the JSON post-processing round-trip -/

/-- C6 as stated is false: for the non-JSON model response consisting of the
single character x surrounded by spaces, the post-processing step does not
return the raw string unchanged up to code-fence stripping — the raw string
contains no fence markers at all, its parse fails, yet the result is the
whitespace-trimmed text, which differs from the input. -/
theorem C6_counterexample :
    postProcessJsonStr " x " = "x" ∧ (" x " : String) ≠ "x" ∧
    removeFirstJsonFence " x ".data = " x ".data ∧
    removeClosingFence " x ".data = " x ".data ∧
    jsonParse (stripFences " x ".data) = none := by
  refine ⟨rfl, by decide, rfl, rfl, rfl⟩

/-- C6 corrected: when the fence-stripped response parses as JSON, the
post-processing step returns the pretty-printed form of the parsed value and
that output reparses to a value deep-equal to the input (round-trip, and the
failure branch is never taken, so no error surfaces); when the parse fails,
the result is the fence-stripped and whitespace-TRIMMED raw text — the trim
is the correction to the claim, which promised the raw text unchanged up to
fence stripping. -/
theorem C6_amended_roundtrip (raw : List Char) :
    (∀ v, jsonParse (stripFences raw) = some v →
      postProcessJson raw = stringifyVal 0 v ∧
      jsonParse (postProcessJson raw) = some v) ∧
    (jsonParse (stripFences raw) = none →
      postProcessJson raw =
        jsTrimList (removeClosingFence (removeFirstJsonFence raw))) := by
  constructor
  · intro v hv
    have hpost : postProcessJson raw = stringifyVal 0 v := by
      rw [postProcessJson]
      simp only [hv]
    exact ⟨hpost, by rw [hpost]; exact jsonParse_stringify v⟩
  · intro hnone
    rw [postProcessJson]
    simp only [hnone]
    rw [stripFences]

/-- Witness for the corrected C6 at a concrete fenced JSON array: the parse
succeeds, the output is the two-space-indented pretty-print, and it reparses
to the same value. -/
theorem C6_amended_roundtrip_witness :
    jsonParse (stripFences "```json\n[1, -20, \"a\"]\n```".data) =
      some (JValue.arr [JValue.num 1, JValue.num (-20), JValue.str ['a']]) ∧
    postProcessJson "```json\n[1, -20, \"a\"]\n```".data =
      stringifyVal 0
        (JValue.arr [JValue.num 1, JValue.num (-20), JValue.str ['a']]) ∧
    jsonParse (postProcessJson "```json\n[1, -20, \"a\"]\n```".data) =
      some (JValue.arr [JValue.num 1, JValue.num (-20), JValue.str ['a']]) :=
  have hv : jsonParse (stripFences "```json\n[1, -20, \"a\"]\n```".data) =
      some (JValue.arr [JValue.num 1, JValue.num (-20), JValue.str ['a']]) := by
    rfl
  ⟨hv, (C6_amended_roundtrip "```json\n[1, -20, \"a\"]\n```".data).1 _ hv⟩

end Ainario
